import Mathlib

/-!
Verification development for the x2node-patches module: an implementation of
RFC 6902 JSON Patch and a record-diff engine over schema-described records.

The development shallowly embeds the module's source:
  * `lib/record-patch-builder.js` (patch operations, their application,
    patch building and validation), and
  * `lib/record-patch-from-diff.js` (the `fromDiff` diff engine).

Record values are embedded as a JSON-like inductive `JVal`; JavaScript's
`undefined` is represented by `Option` (`none` = undefined).  Exceptions
(`X2UsageError`, `X2SyntaxError`, `X2DataError`, built-in `TypeError`, and
stack exhaustion) are represented with `Except JsErr`.

The record pointers come from the external `x2node-pointers` package whose
source is not part of this repository; those definitions are modelled from
the specification (pointer resolution §4.1, pointer navigation §4.2, and the
published pointer API description) and are marked `Modelled from the spec`.
-/

/-- JSON-like record values.  JavaScript objects are association lists in key
insertion order (mirroring `Object.keys` enumeration order); maps declared by
the schema are plain objects and use the same representation. -/
inductive JVal where
  | null : JVal
  | str : String → JVal
  | num : Int → JVal
  | bool : Bool → JVal
  | arr : List JVal → JVal
  | obj : List (String × JVal) → JVal

/-- Errors thrown by the module.  `usageError`/`syntaxError`/`dataError`
correspond to `X2UsageError`/`X2SyntaxError`/`X2DataError` from
`x2node-common`; `typeError` is JavaScript's built-in `TypeError`;
`stackOverflow` is the `RangeError` raised when the call stack is
exhausted by unbounded recursion. -/
inductive JsErr where
  | usageError : String → JsErr
  | syntaxError : String → JsErr
  | dataError : String → JsErr
  | typeError : String → JsErr
  | stackOverflow : JsErr
deriving Repr, DecidableEq

/-- Tell if an `Except JsErr` result is an `X2SyntaxError`. -/
def isSyntaxErr {α : Type} : Except JsErr α → Bool
  | .error (.syntaxError _) => true
  | _ => false

/-- Tell if an `Except JsErr` result is `ok`. -/
def isOkRes {α : Type} : Except JsErr α → Bool
  | .ok _ => true
  | _ => false

/-- JavaScript strict equality `===` restricted to the values the module
compares with it.  The module only applies `===` to scalar values (simple
array/map elements and scalar properties are schema-constrained to scalars);
for composite values `===` is reference equality, which distinct literals in
a patch and a record never satisfy, so it is embedded as `false` there. -/
def jsStrictEq : JVal → JVal → Bool
  | .null, .null => true
  | .str a, .str b => decide (a = b)
  | .num a, .num b => decide (a = b)
  | .bool a, .bool b => decide (a = b)
  | _, _ => false

/-- JavaScript strict equality against a possibly-`undefined` left operand
(the result of a pointer read); `undefined === v` is false for every record
value `v` (which is never `undefined`). -/
def jsStrictEqO : Option JVal → JVal → Bool
  | some a, b => jsStrictEq a b
  | none, _ => false

/-- JavaScript truthiness of a possibly-`undefined` value. -/
def jsTruthy : Option JVal → Bool
  | none => false
  | some .null => false
  | some (.bool b) => b
  | some (.num n) => n != 0
  | some (.str s) => s != ""
  | some (.arr _) => true
  | some (.obj _) => true

/-- Look a key up in a JavaScript object (association list); `none` is
JavaScript's `undefined` for an absent key. -/
def jsGet (fields : List (String × JVal)) (k : String) : Option JVal :=
  match fields.find? (fun f => f.1 == k) with
  | some f => some f.2
  | none => none

/-- Set a key in a JavaScript object: overwrite in place when present
(keeping enumeration order), append otherwise. -/
def jsSet (fields : List (String × JVal)) (k : String) (v : JVal) :
    List (String × JVal) :=
  match fields with
  | [] => [(k, v)]
  | f :: rest => if f.1 == k then (k, v) :: rest else f :: jsSet rest k v

/-- Delete a key from a JavaScript object. -/
def jsDelete (fields : List (String × JVal)) (k : String) :
    List (String × JVal) :=
  match fields with
  | [] => []
  | f :: rest => if f.1 == k then rest else f :: jsDelete rest k

/-- Keys of a JavaScript object, in enumeration order. -/
def jsKeys (fields : List (String × JVal)) : List String :=
  fields.map (·.1)

/-! ## Schema model

The schema descriptors come from the external `x2node-records` package
(§3 and §6 of the specification): per property a structural kind
(scalar / array / map), a scalar value type, and the flags consulted by
this module.  Polymorphic containers are not modelled: every container in
this model answers `false` to `isPolymorphObject()`, so the subtype branch
of the diff engine is never taken. -/

/-- Structural kind of a property. -/
inductive CollType where
  | scalar : CollType
  | array : CollType
  | map : CollType
deriving Repr, DecidableEq

/-- Scalar value type of a property (`propDesc.scalarValueType`). -/
inductive ScalarType where
  | string : ScalarType
  | number : ScalarType
  | boolean : ScalarType
  | datetime : ScalarType
  | ref : ScalarType
  | object : ScalarType
deriving Repr, DecidableEq

/-- Non-recursive data of a property descriptor.  `nestedPath` is the
dot-notation path prefix of the property's nested container (ending in a
dot), and `nestedIdProp` its id property name, both meaningful only for
`object`-typed properties. -/
structure PDData where
  name : String
  coll : CollType
  svt : ScalarType
  optional : Bool
  modifiable : Bool
  isId : Bool
  isView : Bool
  isCalculated : Bool
  isGenerated : Bool
  isRecordMetaInfo : Bool
  isSubtype : Bool
  refTarget : Option String
  nestedIdProp : Option String
  nestedPath : String
deriving Repr, DecidableEq

/-- A property descriptor: its data plus the descriptors of its nested
container's properties (empty unless the scalar value type is `object`). -/
inductive PropDesc where
  | mk : PDData → List PropDesc → PropDesc

def PropDesc.data : PropDesc → PDData
  | .mk d _ => d

def PropDesc.nestedProps : PropDesc → List PropDesc
  | .mk _ ps => ps

def PropDesc.name (p : PropDesc) : String := p.data.name
def PropDesc.coll (p : PropDesc) : CollType := p.data.coll
def PropDesc.svt (p : PropDesc) : ScalarType := p.data.svt
def PropDesc.optional (p : PropDesc) : Bool := p.data.optional
def PropDesc.modifiable (p : PropDesc) : Bool := p.data.modifiable
def PropDesc.isId (p : PropDesc) : Bool := p.data.isId
def PropDesc.isView (p : PropDesc) : Bool := p.data.isView
def PropDesc.isCalculated (p : PropDesc) : Bool := p.data.isCalculated
def PropDesc.isGenerated (p : PropDesc) : Bool := p.data.isGenerated
def PropDesc.isRecordMetaInfo (p : PropDesc) : Bool := p.data.isRecordMetaInfo
def PropDesc.isSubtype (p : PropDesc) : Bool := p.data.isSubtype
def PropDesc.refTarget (p : PropDesc) : Option String := p.data.refTarget

def PropDesc.isScalar (p : PropDesc) : Bool := p.coll == CollType.scalar
def PropDesc.isArray (p : PropDesc) : Bool := p.coll == CollType.array
def PropDesc.isMap (p : PropDesc) : Bool := p.coll == CollType.map
def PropDesc.isRef (p : PropDesc) : Bool := p.svt == ScalarType.ref

/-- A properties container (a record type descriptor or the nested
container of an `object`-typed property). -/
structure Container where
  recordTypeName : String
  nestedPath : String
  idPropertyName : Option String
  props : List PropDesc

/-- The nested container of an `object`-typed property descriptor. -/
def PropDesc.nestedProperties (p : PropDesc) : Container :=
  ⟨p.data.name, p.data.nestedPath, p.data.nestedIdProp, p.nestedProps⟩

/-- Look a property descriptor up by name (`container.getPropertyDesc`). -/
def Container.getPropertyDesc (c : Container) (propName : String) :
    Option PropDesc :=
  c.props.find? (fun p => p.name == propName)

/-- `container.allPropertyNames`, in declaration order. -/
def Container.allPropertyNames (c : Container) : List String :=
  c.props.map (·.name)

/-- The record types library (`x2node-records` `RecordTypesLibrary`),
modelled as a name-indexed list of record type descriptors. -/
def RecordTypes : Type := List (String × Container)

def RecordTypes.hasRecordType (rt : RecordTypes) (n : String) : Bool :=
  (rt.find? (fun e => e.1 == n)).isSome

def RecordTypes.getRecordTypeDesc (rt : RecordTypes) (n : String) :
    Option Container :=
  (rt.find? (fun e => e.1 == n)).map (·.2)

/-! ## Record pointers

The `x2node-pointers` package is an external dependency of this module; the
definitions in this section are modelled from the specification (§4.1
pointer resolution, §4.2 pointer navigation) and from the published
description of the pointer API. -/

/-- Navigation step of a resolved pointer. -/
inductive NavTok where
  | field : String → NavTok
  | index : Nat → NavTok
  | dash : NavTok
  | key : String → NavTok
deriving Repr, DecidableEq

/-- Unescape one RFC 6901 reference token (`~1` → `/`, `~0` → `~`). -/
def unescapeChars : List Char → List Char
  | [] => []
  | '~' :: '1' :: rest => '/' :: unescapeChars rest
  | '~' :: '0' :: rest => '~' :: unescapeChars rest
  | c :: rest => c :: unescapeChars rest

def unescapeTok (s : String) : String := ⟨unescapeChars s.toList⟩

/-- Escape a string for use as an RFC 6901 reference token. -/
def escapeChars : List Char → List Char
  | [] => []
  | '~' :: rest => '~' :: '0' :: escapeChars rest
  | '/' :: rest => '~' :: '1' :: escapeChars rest
  | c :: rest => c :: escapeChars rest

def escapeTok (s : String) : String := ⟨escapeChars s.toList⟩

/-- Split a character list on a separator character (the behavior of
`String.split` on a single-character separator). -/
def splitOnChar (sep : Char) : List Char → List (List Char)
  | [] => [[]]
  | c :: rest =>
    let r := splitOnChar sep rest
    if c = sep then [] :: r
    else
      match r with
      | [] => [[c]]
      | g :: gs => (c :: g) :: gs

/-- Split a string on a separator character. -/
def splitStr (sep : Char) (s : String) : List String :=
  (splitOnChar sep s.toList).map (fun l => ⟨l⟩)

/-- Parse a decimal numeric token (the array-index form accepted by the
pointer parser). -/
def strToNat? (s : String) : Option Nat :=
  match s.toList with
  | [] => none
  | cs =>
    if cs.all Char.isDigit then
      some (cs.foldl (fun a c => 10 * a + (c.toNat - 48)) 0)
    else none

/-- Modelled from the spec: a resolved non-root record element pointer
(`x2node-pointers` `RecordElementPointer`): navigation tokens, the target
property's descriptor, its dot-notation property path, the
collection-element flag, and the RFC 6901 string form. -/
structure RPtr where
  tokens : List NavTok
  propDesc : PropDesc
  propPath : String
  collectionElement : Bool
  ptrStr : String

/-- Result of parsing a pointer: the root pointer (empty string, the whole
record) or a resolved element pointer. -/
inductive PtrRes where
  | root : PtrRes
  | elem : RPtr → PtrRes

/-- Modelled from the spec: resolve a list of already-split reference tokens
against a properties container.  Fails (SyntaxError) when a token does not
name a declared property, a token indexes a non-collection property, a
trailing dash is used while disallowed, or a token descends into a scalar. -/
def resolveToks (c : Container) (strBase : String) (navBase : List NavTok)
    (noDash : Bool) : List String → Except JsErr RPtr
  | [] => .error (.syntaxError "invalid property pointer")
  | [tok] =>
    let name := unescapeTok tok
    match c.getPropertyDesc name with
    | none =>
      .error (.syntaxError
        ("no property " ++ name ++ " in " ++ c.recordTypeName))
    | some p =>
      .ok ⟨navBase ++ [NavTok.field name], p, c.nestedPath ++ name, false,
        strBase ++ "/" ++ escapeTok name⟩
  | tok :: tok2 :: rest2 =>
    let name := unescapeTok tok
    match c.getPropertyDesc name with
    | none =>
      .error (.syntaxError
        ("no property " ++ name ++ " in " ++ c.recordTypeName))
    | some p =>
      let strHere := strBase ++ "/" ++ escapeTok name
      let navHere := navBase ++ [NavTok.field name]
      let propPath := c.nestedPath ++ name
      match p.coll with
      | CollType.array =>
        if tok2 = "-" then
          match rest2 with
          | [] =>
            if noDash then
              .error (.syntaxError
                "dash not allowed at the end of the pointer")
            else
              .ok ⟨navHere ++ [NavTok.dash], p, propPath, true,
                strHere ++ "/-"⟩
          | _ => .error (.syntaxError "cannot descend past a dash token")
        else
          match strToNat? tok2 with
          | none => .error (.syntaxError ("invalid array index " ++ tok2))
          | some i =>
            let nav2 := navHere ++ [NavTok.index i]
            let str2 := strHere ++ "/" ++ toString i
            match rest2 with
            | [] => .ok ⟨nav2, p, propPath, true, str2⟩
            | _ =>
              if p.svt = ScalarType.object then
                resolveToks p.nestedProperties str2 nav2 noDash rest2
              else
                .error (.syntaxError "pointer descends into a scalar")
      | CollType.map =>
        let k := unescapeTok tok2
        let nav2 := navHere ++ [NavTok.key k]
        let str2 := strHere ++ "/" ++ escapeTok k
        match rest2 with
        | [] => .ok ⟨nav2, p, propPath, true, str2⟩
        | _ =>
          if p.svt = ScalarType.object then
            resolveToks p.nestedProperties str2 nav2 noDash rest2
          else
            .error (.syntaxError "pointer descends into a scalar")
      | CollType.scalar =>
        if p.svt = ScalarType.object then
          resolveToks p.nestedProperties strHere navHere noDash
            (tok2 :: rest2)
        else
          .error (.syntaxError "pointer descends into a scalar")

/-- Modelled from the spec: `pointers.parse(recordTypeDesc, propPointer,
noDash)`.  The empty string is the root pointer; a non-empty pointer must
start with the separator.  A non-string argument is rejected. -/
def pointersParse (c : Container) (propPointer : Option String)
    (noDash : Bool) : Except JsErr PtrRes :=
  match propPointer with
  | none => .error (.syntaxError "invalid property pointer")
  | some s =>
    match s.toList with
    | [] => .ok PtrRes.root
    | '/' :: _ =>
      (resolveToks c "" [] noDash ((splitStr '/' s).drop 1)).map PtrRes.elem
    | _ =>
      .error (.syntaxError "property pointer does not start with /")

/-- Modelled from the spec: read one navigation step.  A plain property read
of an absent field yields `null` (a present-but-empty schema-level absence
reads as `null`); an absent collection element (out-of-range index, absent
key, or a dash) yields `undefined` (`none`). -/
def readLeaf (v : JVal) : NavTok → Except JsErr (Option JVal)
  | NavTok.field f =>
    match v with
    | .obj fields =>
      .ok (match jsGet fields f with
           | some x => some x
           | none => some JVal.null)
    | _ => .error (.dataError "cannot read a property of a non-object")
  | NavTok.index i =>
    match v with
    | .arr l => .ok l[i]?
    | _ => .error (.dataError "cannot index a non-array")
  | NavTok.dash =>
    match v with
    | .arr _ => .ok none
    | _ => .error (.dataError "cannot index a non-array")
  | NavTok.key k =>
    match v with
    | .obj fields => .ok (jsGet fields k)
    | _ => .error (.dataError "cannot key into a non-object")

/-- Modelled from the spec: pointer read.  Fails (DataError) when an
intermediate segment required to continue navigation is itself
missing or `null` in the actual record. -/
def navRead (v : JVal) : List NavTok → Except JsErr (Option JVal)
  | [] => .ok (some v)
  | [t] => readLeaf v t
  | t :: rest => do
    match ← readLeaf v t with
    | none => .error (.dataError "missing intermediate record element")
    | some JVal.null => .error (.dataError "missing intermediate record element")
    | some w => navRead w rest

/-- Modelled from the spec: `ptr.getValue(record)`. -/
def RPtr.getValue (p : RPtr) (record : JVal) : Except JsErr (Option JVal) :=
  navRead record p.tokens

/-- Reinstall a modified child value at one navigation step. -/
def writeBack (v : JVal) (t : NavTok) (w : JVal) : Except JsErr JVal :=
  match t, v with
  | NavTok.field f, .obj fields => .ok (.obj (jsSet fields f w))
  | NavTok.key k, .obj fields => .ok (.obj (jsSet fields k w))
  | NavTok.index i, .arr l => .ok (.arr (l.set i w))
  | _, _ => .error (.dataError "cannot write back a record element")

/-- Modelled from the spec: navigate to the parent of the addressed location
and apply a leaf modification there, returning the modified record and the
previous value at the addressed location (`none` = `undefined`). -/
def navMod (leafOp : JVal → NavTok → Except JsErr (JVal × Option JVal))
    (v : JVal) : List NavTok → Except JsErr (JVal × Option JVal)
  | [] => .error (.dataError "cannot modify the record root")
  | [t] => leafOp v t
  | t :: rest => do
    match ← readLeaf v t with
    | none => .error (.dataError "missing intermediate record element")
    | some JVal.null => .error (.dataError "missing intermediate record element")
    | some w =>
      let r ← navMod leafOp w rest
      let v2 ← writeBack v t r.1
      .ok (v2, r.2)

/-- Modelled from the spec: leaf step of `ptr.addValue` — inserts before the
addressed array index (an index beyond the end appends), appends at a dash,
or sets a map key / whole property, replacing any existing value. -/
def addLeaf (newVal : JVal) (v : JVal) (t : NavTok) :
    Except JsErr (JVal × Option JVal) :=
  match t, v with
  | NavTok.field f, .obj fields => .ok (.obj (jsSet fields f newVal), jsGet fields f)
  | NavTok.key k, .obj fields => .ok (.obj (jsSet fields k newVal), jsGet fields k)
  | NavTok.index i, .arr l => .ok (.arr (l.take i ++ [newVal] ++ l.drop i), none)
  | NavTok.dash, .arr l => .ok (.arr (l ++ [newVal]), none)
  | _, _ => .error (.dataError "cannot add a record element")

/-- Modelled from the spec: leaf step of `ptr.replaceValue` — like the add
leaf but replaces the existing array element in place (out-of-range
replacement of a non-existing element is a data error in this model;
the specification only defines replacement of existing elements). -/
def replaceLeaf (newVal : JVal) (v : JVal) (t : NavTok) :
    Except JsErr (JVal × Option JVal) :=
  match t, v with
  | NavTok.field f, .obj fields => .ok (.obj (jsSet fields f newVal), jsGet fields f)
  | NavTok.key k, .obj fields => .ok (.obj (jsSet fields k newVal), jsGet fields k)
  | NavTok.index i, .arr l =>
    if i < l.length then .ok (.arr (l.set i newVal), l[i]?)
    else .error (.dataError "no array element to replace")
  | NavTok.dash, .arr l => .ok (.arr (l ++ [newVal]), none)
  | _, _ => .error (.dataError "cannot replace a record element")

/-- Modelled from the spec: leaf step of `ptr.removeValue` — deletes an
array element (left-shifting the tail) or a map key; otherwise nulls the
property.  The removed value of a whole property follows read semantics
(`null` when the property was absent). -/
def removeLeaf (v : JVal) (t : NavTok) : Except JsErr (JVal × Option JVal) :=
  match t, v with
  | NavTok.field f, .obj fields =>
    .ok (.obj (jsSet fields f JVal.null), some ((jsGet fields f).getD JVal.null))
  | NavTok.key k, .obj fields =>
    match jsGet fields k with
    | some x => .ok (.obj (jsDelete fields k), some x)
    | none => .ok (.obj fields, none)
  | NavTok.index i, .arr l =>
    if i < l.length then .ok (.arr (l.eraseIdx i), l[i]?)
    else .ok (.arr l, none)
  | NavTok.dash, .arr l => .ok (.arr l, none)
  | _, _ => .error (.dataError "cannot remove a record element")

/-- Modelled from the spec: `ptr.addValue(record, value)`; returns the
modified record and the previous value at the location. -/
def RPtr.addValue (p : RPtr) (record : JVal) (value : JVal) :
    Except JsErr (JVal × Option JVal) :=
  navMod (addLeaf value) record p.tokens

/-- Modelled from the spec: `ptr.replaceValue(record, value)`. -/
def RPtr.replaceValue (p : RPtr) (record : JVal) (value : JVal) :
    Except JsErr (JVal × Option JVal) :=
  navMod (replaceLeaf value) record p.tokens

/-- Modelled from the spec: `ptr.removeValue(record)`; returns the modified
record and the removed value. -/
def RPtr.removeValue (p : RPtr) (record : JVal) :
    Except JsErr (JVal × Option JVal) :=
  navMod removeLeaf record p.tokens

/-- Modelled from the spec: `ptr.isChildOf(otherPtr)` — `true` if the other
pointer is a proper prefix of this pointer. -/
def RPtr.isChildOf (p other : RPtr) : Bool :=
  other.tokens.isPrefixOf p.tokens && p.tokens.length != other.tokens.length

/-- Modelled from the spec: `ptr.toString()` — the RFC 6901 string form. -/
def RPtr.toStr (p : RPtr) : String := p.ptrStr

/-! ## Deep-equality helpers and operation applicability

Direct translations from the source.  The nested-object equality helpers
are stubbed in the source ("TODO: implement") and always report unequal;
they are embedded exactly as written. -/

/-- Source `equalSimpleArrays` else-branch: `!arr2 || arr2.length === 0`
(the value is schema-validated to be an array or `null`). -/
def emptyArrayish : JVal → Bool
  | .null => true
  | .arr l => l.isEmpty
  | _ => false

/-- Source `equalSimpleMaps` else-branch: `!map2 || Object.keys(map2).length
=== 0`. -/
def emptyMapish : JVal → Bool
  | .null => true
  | .obj f => f.isEmpty
  | _ => false

/-- JavaScript strict equality where both operands may be `undefined`
(`undefined === undefined` is `true`). -/
def jsStrictEqOO : Option JVal → Option JVal → Bool
  | some a, some b => jsStrictEq a b
  | none, none => true
  | _, _ => false

/-- Test if two simple value arrays are equal (source `equalSimpleArrays`):
a non-empty first array is equal to a second array of the same length whose
elements are pairwise `===`-equal; an empty/absent first array is equal to
an absent or empty second array. -/
def equalSimpleArrays (arr1 : Option JVal) (arr2 : JVal) : Bool :=
  match arr1 with
  | some (.arr l1) =>
    if l1.length > 0 then
      match arr2 with
      | .arr l2 =>
        l2.length == l1.length && (l2.zip l1).all (fun q => jsStrictEq q.1 q.2)
      | _ => false
    else emptyArrayish arr2
  | _ => emptyArrayish arr2

/-- Test if two simple value maps are equal (source `equalSimpleMaps`). -/
def equalSimpleMaps (map1 : Option JVal) (map2 : JVal) : Bool :=
  match map1 with
  | some (.obj f1) =>
    if f1.length > 0 then
      match map2 with
      | .obj f2 =>
        (jsKeys f2).length == (jsKeys f1).length &&
          (jsKeys f2).all (fun k => jsStrictEqOO (jsGet f2 k) (jsGet f1 k))
      | _ => false
    else emptyMapish map2
  | _ => emptyMapish map2

/-- Test if two nested object arrays are equal.  Stubbed in the source
("TODO: implement"): always reports unequal. -/
def equalObjectArrays : Bool := false

/-- Test if two nested object maps are equal.  Stubbed in the source
("TODO: implement"): always reports unequal. -/
def equalObjectMaps : Bool := false

/-- Test if two nested objects are equal.  Stubbed in the source
("TODO: implement"): always reports unequal. -/
def equalObjects : Bool := false

/-- Tell if anything needs to be done to "add" the specified value at the
location pointed at by the pointer (source `needsAdd`). -/
def needsAdd (ptr : RPtr) (record : JVal) (value : JVal) :
    Except JsErr Bool := do
  let propDesc := ptr.propDesc
  if propDesc.isArray then
    if ptr.collectionElement then
      pure true
    else if propDesc.svt = ScalarType.object then
      pure (!equalObjectArrays)
    else
      pure (!equalSimpleArrays (← ptr.getValue record) value)
  else if propDesc.isMap && !ptr.collectionElement then
    if propDesc.svt = ScalarType.object then
      pure (!equalObjectMaps)
    else
      pure (!equalSimpleMaps (← ptr.getValue record) value)
  else if propDesc.svt = ScalarType.object then
    pure (!equalObjects)
  else
    pure (!(jsStrictEqO (← ptr.getValue record) value))

/-- Tell if anything needs to be done to "replace" the location pointed at
by the pointer with the specified value (source `needsReplace`). -/
def needsReplace (ptr : RPtr) (record : JVal) (value : JVal) :
    Except JsErr Bool := do
  let propDesc := ptr.propDesc
  if !ptr.collectionElement && propDesc.isArray then
    if propDesc.svt = ScalarType.object then
      pure (!equalObjectArrays)
    else
      pure (!equalSimpleArrays (← ptr.getValue record) value)
  else if !ptr.collectionElement && propDesc.isMap then
    if propDesc.svt = ScalarType.object then
      pure (!equalObjectMaps)
    else
      pure (!equalSimpleMaps (← ptr.getValue record) value)
  else if propDesc.svt = ScalarType.object then
    pure (!equalObjects)
  else
    pure (!(jsStrictEqO (← ptr.getValue record) value))

/-! ## Patch operations and their application -/

/-- A parsed record patch operation (source `RecordPatchOperation`
subclasses; the tagged variant carries the same data: the path pointer plus
a value, a source pointer, or a nested operation list). -/
inductive PatchOp where
  | add : RPtr → JVal → PatchOp
  | merge : RPtr → JVal → List PatchOp → PatchOp
  | remove : RPtr → PatchOp
  | replace : RPtr → JVal → PatchOp
  | move : RPtr → RPtr → PatchOp
  | copy : RPtr → RPtr → PatchOp
  | test : RPtr → JVal → PatchOp

/-- Observer notification (`RecordPatchHandlers` callbacks `onInsert`,
`onSet`, `onRemove`, `onTest`).  The observer is modelled as a total trace
recorder: every callback invocation appends one event. -/
inductive Event where
  | insert : String → String → JVal → Option JVal → Event
  | set : String → String → JVal → Option JVal → Event
  | remove : String → String → JVal → Event
  | test : String → JVal → Bool → Event

/-- Shared second half of the "add", "move" and "copy" operations: perform
the add if `needsAdd`, emitting `onInsert` for an array element or a
previously-absent map key and `onSet` otherwise (the same code appears in
`AddRecordPatchOperation.apply`, `MoveRecordPatchOperation.apply` and
`CopyRecordPatchOperation.apply`). -/
def applyAddHalf (opName : String) (ptr : RPtr) (record : JVal)
    (value : JVal) (evs : List Event) :
    Except JsErr (Bool × JVal × List Event) :=
  match needsAdd ptr record value with
  | .error e => .error e
  | .ok need =>
    if need then
      match ptr.addValue record value with
      | .error e => .error e
      | .ok (rec2, oldValue) =>
        if ptr.collectionElement && (ptr.propDesc.isArray || oldValue.isNone)
          then
          .ok (true, rec2, evs ++ [Event.insert opName ptr.ptrStr value oldValue])
        else
          .ok (true, rec2, evs ++ [Event.set opName ptr.ptrStr value oldValue])
    else
      .ok (true, record, evs)

mutual

/-- Apply one patch operation to a record (the `apply` methods of the
`RecordPatchOperation` subclasses).  Returns the pass/fail flag, the
updated record, and the observer events.  The "merge" case embeds the
source faithfully: when the current value is absent/falsy it evaluates
`this._addOp(record, handlers)`, which invokes the stored
`AddRecordPatchOperation` object as a function and therefore throws a
`TypeError`. -/
def applyOp : PatchOp → JVal → Except JsErr (Bool × JVal × List Event)
  | PatchOp.add ptr value, record => applyAddHalf "add" ptr record value []
  | PatchOp.merge ptr _value sub, record =>
    match ptr.getValue record with
    | .error e => .error e
    | .ok oldValue =>
      if jsTruthy oldValue then
        applyOps sub record
      else
        .error (.typeError "this._addOp is not a function")
  | PatchOp.remove ptr, record =>
    match ptr.removeValue record with
    | .error e => .error e
    | .ok (rec2, oldValue) =>
      if ptr.collectionElement then
        match oldValue with
        | none =>
          .error (.dataError ("No value to remove at " ++ ptr.ptrStr ++ "."))
        | some old => .ok (true, rec2, [Event.remove "remove" ptr.ptrStr old])
      else
        match oldValue with
        | some JVal.null => .ok (true, rec2, [])
        | some old =>
          .ok (true, rec2, [Event.set "remove" ptr.ptrStr JVal.null (some old)])
        | none =>
          .ok (true, rec2, [Event.set "remove" ptr.ptrStr JVal.null none])
  | PatchOp.replace ptr value, record =>
    match needsReplace ptr record value with
    | .error e => .error e
    | .ok need =>
      if need then
        match ptr.replaceValue record value with
        | .error e => .error e
        | .ok (rec2, oldValue) =>
          .ok (true, rec2, [Event.set "replace" ptr.ptrStr value oldValue])
      else
        .ok (true, record, [])
  | PatchOp.move ptr fromPtr, record =>
    if ptr.ptrStr == fromPtr.ptrStr then
      .ok (true, record, [])
    else
      match fromPtr.removeValue record with
      | .error e => .error e
      | .ok (rec2, removed) =>
        if fromPtr.collectionElement then
          match removed with
          | none =>
            .error
              (.dataError ("No value to move at " ++ fromPtr.ptrStr ++ "."))
          | some value =>
            applyAddHalf "move" ptr rec2 value
              [Event.remove "move" fromPtr.ptrStr value]
        else
          match removed with
          | some JVal.null => applyAddHalf "move" ptr rec2 JVal.null []
          | some value =>
            applyAddHalf "move" ptr rec2 value
              [Event.set "move" fromPtr.ptrStr JVal.null (some value)]
          | none => applyAddHalf "move" ptr rec2 JVal.null []
  | PatchOp.copy ptr fromPtr, record =>
    match fromPtr.getValue record with
    | .error e => .error e
    | .ok none =>
      .error (.dataError ("No value to copy at " ++ fromPtr.ptrStr ++ "."))
    | .ok (some value) => applyAddHalf "copy" ptr record value []
  | PatchOp.test ptr value, record =>
    match needsReplace ptr record value with
    | .error e => .error e
    | .ok b => .ok (!b, record, [Event.test ptr.ptrStr value (!b)])

/-- Apply a list of patch operations in order, stopping at the first one
that reports failure (source `RecordPatch.apply`). -/
def applyOps : List PatchOp → JVal → Except JsErr (Bool × JVal × List Event)
  | [], record => .ok (true, record, [])
  | op :: rest, record =>
    match applyOp op record with
    | .error e => .error e
    | .ok (b, rec2, evs) =>
      if b then
        match applyOps rest rec2 with
        | .error e => .error e
        | .ok (b2, rec3, evs2) => .ok (b2, rec3, evs ++ evs2)
      else
        .ok (false, rec2, evs)

end

/-- A built record patch (source `RecordPatch`): the ordered operation
sequence plus the two derived property-path sets (JavaScript `Set`s are
embedded as duplicate-free lists in insertion order). -/
structure RecordPatch where
  patchOps : List PatchOp
  involvedPropPaths : List String
  updatedPropPaths : List String

/-- Apply a patch to a record (source `RecordPatch.apply`): executes the
operations in order and returns `false` at the first failed "test"
operation, `true` otherwise. -/
def RecordPatch.apply (p : RecordPatch) (record : JVal) :
    Except JsErr (Bool × JVal × List Event) :=
  applyOps p.patchOps record

/-! ## Patch building and validation -/

/-- The datetime literal pattern from the source,
`/^\d{4}-\d{2}-\d{2}T\d{2}:\d{2}:\d{2}\.\d{3}Z$/`. -/
def dtPatternMatch (s : String) : Bool :=
  match s.toList with
  | [y1, y2, y3, y4, '-', o1, o2, '-', a1, a2, 'T', h1, h2, ':', m1, m2, ':',
     c1, c2, '.', f1, f2, f3, 'Z'] =>
    [y1, y2, y3, y4, o1, o2, a1, a2, h1, h2,
     m1, m2, c1, c2, f1, f2, f3].all Char.isDigit
  | _ => false

/-- Numeric value of a decimal digit character. -/
def digitVal (c : Char) : Nat := c.toNat - 48

def isLeapYear (y : Nat) : Bool :=
  y % 4 == 0 && (y % 100 != 0 || y % 400 == 0)

def daysInMonth (y mo : Nat) : Nat :=
  if mo = 2 then (if isLeapYear y then 29 else 28)
  else if mo = 4 ∨ mo = 6 ∨ mo = 9 ∨ mo = 11 then 30
  else 31

/-- Model of the ECMAScript `Date.parse` validity check on strings of the
module's datetime pattern (`!Number.isNaN(Date.parse(val))`): the date must
be a real proleptic Gregorian calendar date and the time components in
range (hour 24 only together with zero minutes, seconds and milliseconds).
The source only consults `Date.parse` after the exact pattern has matched,
so the model reports invalid on other strings. -/
def jsDateParseValid (s : String) : Bool :=
  match s.toList with
  | [y1, y2, y3, y4, '-', o1, o2, '-', a1, a2, 'T', h1, h2, ':', m1, m2, ':',
     c1, c2, '.', f1, f2, f3, 'Z'] =>
    if [y1, y2, y3, y4, o1, o2, a1, a2, h1, h2,
        m1, m2, c1, c2, f1, f2, f3].all Char.isDigit then
      let y := 1000 * digitVal y1 + 100 * digitVal y2 + 10 * digitVal y3 +
        digitVal y4
      let mo := 10 * digitVal o1 + digitVal o2
      let dy := 10 * digitVal a1 + digitVal a2
      let hh := 10 * digitVal h1 + digitVal h2
      let mi := 10 * digitVal m1 + digitVal m2
      let ss := 10 * digitVal c1 + digitVal c2
      let ms := 100 * digitVal f1 + 10 * digitVal f2 + digitVal f3
      decide (1 ≤ mo) && decide (mo ≤ 12) && decide (1 ≤ dy) &&
        decide (dy ≤ daysInMonth y mo) &&
        ((decide (hh ≤ 23) && decide (mi ≤ 59) && decide (ss ≤ 59)) ||
          (hh == 24 && mi == 0 && ss == 0 && ms == 0))
    else false
  | _ => false

/-- Tell if a value is suitable for a reference property (source
`isValidRefValue`): a string of the form `Target#id` whose target matches
the property's reference target and, for number-id targets, whose id part
is numeric (modelling the `Number.isFinite(Number(...))` check for the id
strings in scope). -/
def isValidRefValue (rt : RecordTypes) (val : JVal) (propDesc : PropDesc) :
    Bool :=
  match val with
  | .str s =>
    let cs := s.toList
    let hashInd := cs.findIdx (· == '#')
    if hashInd == cs.length || hashInd == 0 || hashInd == cs.length - 1 then
      false
    else
      let target : String := ⟨cs.take hashInd⟩
      if propDesc.refTarget != some target then false
      else
        match rt.getRecordTypeDesc target with
        | none => false
        | some targetDesc =>
          match targetDesc.idPropertyName.bind
              (fun n => targetDesc.getPropertyDesc n) with
          | some idDesc =>
            if idDesc.svt == ScalarType.number then
              (cs.drop (hashInd + 1)).all Char.isDigit
            else true
          | none => true
  | _ => false

mutual

/-- Tell if the specified value is not good as a scalar value for the
specified property (source `isInvalidScalarValueType`): `none` when valid,
`some errorMessage` when invalid.  The `number` case embeds the source's
operator precedence as written (`(A && B) || !Number.isFinite(val)`), under
which `null` is rejected for number properties. -/
def isInvalidScalarValueType (rt : RecordTypes) (val : JVal)
    (propDesc : PropDesc) (forUpdate : Bool) : Option String :=
  match propDesc with
  | .mk d ps =>
    match d.svt with
    | ScalarType.string =>
      match val with
      | .null => none
      | .str _ => none
      | _ => some "expected string."
    | ScalarType.number =>
      match val with
      | .num _ => none
      | _ => some "expected number."
    | ScalarType.boolean =>
      match val with
      | .null => none
      | .bool _ => none
      | _ => some "expected boolean."
    | ScalarType.datetime =>
      match val with
      | .null => none
      | .str s =>
        if dtPatternMatch s && jsDateParseValid s then none
        else some "expected ISO 8601 string."
      | _ => some "expected ISO 8601 string."
    | ScalarType.ref =>
      match val with
      | .null => none
      | _ =>
        if isValidRefValue rt val (.mk d ps) then none
        else some ("expected " ++ (d.refTarget.getD "") ++ " reference.")
    | ScalarType.object =>
      match val with
      | .null => some "unexpected null instead of an object."
      | _ =>
        if validObjectProps rt val ps forUpdate then none
        else some "expected matching object properties."

/-- Loop of source `isValidObjectValue` over the nested container's
property descriptors, checking the corresponding fields of the value. -/
def validObjectProps (rt : RecordTypes) (val : JVal) (ps : List PropDesc)
    (forUpdate : Bool) : Bool :=
  match ps with
  | [] => true
  | p :: rest =>
    if p.isView || p.isCalculated then validObjectProps rt val rest forUpdate
    else
      let propVal :=
        match val with
        | .obj fields => jsGet fields p.name
        | _ => none
      match propVal with
      | none =>
        if !p.optional && (!forUpdate || !p.isGenerated) then false
        else validObjectProps rt val rest forUpdate
      | some JVal.null =>
        if !p.optional && (!forUpdate || !p.isGenerated) then false
        else validObjectProps rt val rest forUpdate
      | some pv =>
        if p.isArray then
          match pv with
          | .arr l =>
            if !p.optional && l.isEmpty then false
            else if l.any
                (fun v => (isInvalidScalarValueType rt v p forUpdate).isSome)
              then false
            else validObjectProps rt val rest forUpdate
          | _ => false
        else if p.isMap then
          match pv with
          | .obj f =>
            if !p.optional && f.isEmpty then false
            else if (jsKeys f).any
                (fun k =>
                  (isInvalidScalarValueType rt ((jsGet f k).getD JVal.null) p
                    forUpdate).isSome)
              then false
            else validObjectProps rt val rest forUpdate
          | _ => false
        else
          if (isInvalidScalarValueType rt pv p forUpdate).isSome then false
          else validObjectProps rt val rest forUpdate

end

/-- Tell if the specified object is suitable to be a value for the
specified nested object property (source `isValidObjectValue`). -/
def isValidObjectValue (rt : RecordTypes) (val : JVal)
    (objectPropDesc : PropDesc) (forUpdate : Bool) : Bool :=
  validObjectProps rt val objectPropDesc.nestedProps forUpdate

/-- Source `isCompatibleObjects` final loop: every type-2 property name not
consumed by the main loop must be a view or a calculated property. -/
def compatLeftover (ps2 : List PropDesc) (consumed : List String) : Bool :=
  ps2.all (fun p2 =>
    consumed.contains p2.name || p2.isView || p2.isCalculated)

mutual

/-- Tell if a value of nested object property 2 can be used as a value of
nested object property 1 (source `isCompatibleObjects`): every
non-view/non-calculated property of type 1 must appear in type 2 with
compatible kind/type/optionality (or be optional), and every type-2
property not consumed this way must be a view or calculated property. -/
def isCompatibleObjects (d1 d2 : PropDesc) : Bool :=
  match d1 with
  | .mk _ ps1 =>
    compatProps ps1 d2.nestedProperties &&
      compatLeftover d2.nestedProps
        (ps1.filterMap (fun q =>
          if !(q.isView || q.isCalculated) &&
              (d2.nestedProps.map PropDesc.name).contains q.name
          then some q.name else none))

/-- Per-property loop of `isCompatibleObjects`. -/
def compatProps (ps1 : List PropDesc) (c2 : Container) : Bool :=
  match ps1 with
  | [] => true
  | q :: rest =>
    if q.isView || q.isCalculated then compatProps rest c2
    else
      match c2.getPropertyDesc q.name with
      | none => if !q.optional then false else compatProps rest c2
      | some p2 =>
        if !q.optional && p2.optional then false
        else if (q.isArray && !p2.isArray) || (q.isMap && !p2.isMap) ||
            (q.isScalar && !p2.isScalar) then false
        else if q.svt != p2.svt then false
        else if q.isRef && q.refTarget != p2.refTarget then false
        else if q.svt == ScalarType.object && !isCompatibleObjects q p2 then
          false
        else compatProps rest c2

end

/-- Validate the "from" pointer of a "move"/"copy" operation (source
`validatePatchOperationFrom`).  The source also reads
`fromPropDesc.collectionElement` in the array/map arms — a pointer
attribute absent on a property descriptor, hence always undefined/falsy —
so those conjuncts reduce to the `isArray`/`isMap` tests. -/
def validatePatchOperationFrom (opType : String) (opInd : Nat)
    (pathPtr fromPtr : RPtr) (forMove : Bool) : Except JsErr RPtr :=
  let invalidFrom := fun (msg : String) => JsErr.syntaxError
    ("Invalid \"from\" pointer in patch operation #" ++ toString (opInd + 1) ++
      " (" ++ opType ++ "): " ++ msg)
  if forMove && pathPtr.isChildOf fromPtr then
    .error (invalidFrom "may not move location into one of its children.")
  else
    let fromPropDesc := fromPtr.propDesc
    let toPropDesc := pathPtr.propDesc
    if fromPropDesc.svt != toPropDesc.svt then
      .error (invalidFrom "incompatible property value types.")
    else if toPropDesc.isRef &&
        fromPropDesc.refTarget != toPropDesc.refTarget then
      .error (invalidFrom "incompatible reference property targets.")
    else if toPropDesc.svt == ScalarType.object &&
        !isCompatibleObjects fromPropDesc toPropDesc then
      .error (invalidFrom "incompatible nested objects.")
    else if toPropDesc.isArray && !pathPtr.collectionElement then
      if !fromPropDesc.isArray then .error (invalidFrom "not an array.")
      else .ok fromPtr
    else if toPropDesc.isMap && !pathPtr.collectionElement then
      if !fromPropDesc.isMap then .error (invalidFrom "not a map.")
      else .ok fromPtr
    else
      if !fromPropDesc.isScalar && !fromPtr.collectionElement then
        .error (invalidFrom "not a scalar.")
      else .ok fromPtr

/-- Intended pointer use in a patch operation (source `PTRUSE`). -/
inductive PtrUse where
  | read : PtrUse
  | set : PtrUse
  | erase : PtrUse
deriving Repr, DecidableEq

/-- Resolve a property pointer for a patch operation (source
`resolvePropPointer`): parse, reject the root pointer, and check the
intended use (Set-type targets must be modifiable; Erase-type non-element
targets must be optional). -/
def resolvePropPointer (recordTypeDesc : Container)
    (propPointer : Option String) (noDash : Bool) (ptrUse : PtrUse) :
    Except JsErr RPtr := do
  let pr ← pointersParse recordTypeDesc propPointer noDash
  match pr with
  | PtrRes.root =>
    .error (.syntaxError
      "Patch operations involving top records as a whole are not allowed.")
  | PtrRes.elem ptr =>
    match ptrUse with
    | PtrUse.set =>
      if !ptr.propDesc.modifiable then
        .error (.syntaxError
          ("May not update non-modifiable property " ++ ptr.propPath ++ "."))
      else .ok ptr
    | PtrUse.erase =>
      if (ptr.propDesc.isScalar || !ptr.collectionElement) &&
          !ptr.propDesc.optional then
        .error (.syntaxError
          ("May not remove a required property " ++ ptr.propPath ++ "."))
      else .ok ptr
    | PtrUse.read => .ok ptr

/-- Validate the value provided with a patch operation (source
`validatePatchOperationValue`); returns the value when valid.  JavaScript
arrays satisfy `typeof val === 'object'`, so the merge-value and map-value
object checks accept them as written in the source; the map case keys them
by index. -/
def validatePatchOperationValue (rt : RecordTypes) (opType : String)
    (opInd : Nat) (pathPtr : RPtr) (val? : Option JVal) (forUpdate : Bool) :
    Except JsErr JVal :=
  let vErr := fun (msg : String) => JsErr.syntaxError
    ("Invalid value in patch operation #" ++ toString (opInd + 1) ++
      " (" ++ opType ++ "): " ++ msg)
  match val? with
  | none => .error (vErr "no value is provided for the operation.")
  | some val =>
    let propDesc := pathPtr.propDesc
    if opType = "merge" then
      match val with
      | .obj _ =>
        if !(propDesc.isMap && !pathPtr.collectionElement) &&
            !((propDesc.svt == ScalarType.object) &&
              (propDesc.isScalar || pathPtr.collectionElement)) then
          .error (vErr "invalid merge target record element type.")
        else .ok val
      | .arr _ =>
        if !(propDesc.isMap && !pathPtr.collectionElement) &&
            !((propDesc.svt == ScalarType.object) &&
              (propDesc.isScalar || pathPtr.collectionElement)) then
          .error (vErr "invalid merge target record element type.")
        else .ok val
      | _ => .error (vErr "merge value must be a non-null object.")
    else
      match val with
      | JVal.null =>
        if (propDesc.isScalar || !pathPtr.collectionElement) &&
            !propDesc.optional then
          .error (vErr "null for required property.")
        else if pathPtr.collectionElement &&
            propDesc.svt == ScalarType.object then
          .error (vErr "null for nested object collection element.")
        else .ok val
      | _ =>
        if propDesc.isArray && !pathPtr.collectionElement then
          match val with
          | .arr l =>
            if !propDesc.optional && l.isEmpty then
              .error (vErr "empty array for required property.")
            else
              match l.findSome?
                  (fun v => isInvalidScalarValueType rt v propDesc forUpdate)
                with
              | some msg => .error (vErr msg)
              | none => .ok val
          | _ => .error (vErr "expected an array.")
        else if propDesc.isMap && !pathPtr.collectionElement then
          match val with
          | .obj f =>
            if !propDesc.optional && f.isEmpty then
              .error (vErr "empty object for required property.")
            else
              match (jsKeys f).findSome?
                  (fun k => isInvalidScalarValueType rt
                    ((jsGet f k).getD JVal.null) propDesc forUpdate) with
              | some msg => .error (vErr msg)
              | none => .ok val
          | .arr l =>
            if !propDesc.optional && l.isEmpty then
              .error (vErr "empty object for required property.")
            else
              match l.findSome?
                  (fun v => isInvalidScalarValueType rt v propDesc forUpdate)
                with
              | some msg => .error (vErr msg)
              | none => .ok val
          | _ => .error (vErr "expected an object.")
        else
          match isInvalidScalarValueType rt val propDesc forUpdate with
          | some msg => .error (vErr msg)
          | none => .ok val

/-- JavaScript `Set.add` on a set embedded as a duplicate-free list in
insertion order. -/
def setAdd (s : List String) (x : String) : List String :=
  if s.contains x then s else s ++ [x]

/-- The ancestor loop of source `addInvolvedProperty`: add every proper
dot-path ancestor of the property path to the updated-paths set. -/
def addAncestorPaths (upd : List String) (parts : List String)
    (pathSoFar : String) : List String :=
  match parts with
  | [] => upd
  | [_] => upd
  | q :: rest =>
    let p2 := if pathSoFar = "" then q else pathSoFar ++ "." ++ q
    addAncestorPaths (setAdd upd p2) rest p2

/-- Loop of source `addInvolvedObjectProperty` over the property
descriptors of the nested container of `objectPropDesc`.  The source's
recursive call passes the *outer* `objectPropDesc` unchanged — it
re-enters the loop on `objectPropDesc`'s own nested properties — so any
non-view/non-calculated `object`-typed property in that container makes
the recursion unbounded; the fuel argument models the JavaScript call
stack, and its exhaustion the resulting `RangeError` (one unit of fuel is
consumed per loop step). -/
def aioGo (fuel : Nat) (objectPropDesc : PropDesc) (ps : List PropDesc)
    (inv : List String) (upd? : Option (List String)) :
    Except JsErr (List String × Option (List String)) :=
  match fuel with
  | 0 => .error .stackOverflow
  | fuel + 1 =>
    match ps with
    | [] => .ok (inv, upd?)
    | p :: rest =>
      if p.isCalculated || p.isView then
        aioGo fuel objectPropDesc rest inv upd?
      else if p.svt == ScalarType.object then do
        let r ← aioGo fuel objectPropDesc objectPropDesc.nestedProps inv upd?
        aioGo fuel objectPropDesc rest r.1 r.2
      else
        let propPath := objectPropDesc.nestedProperties.nestedPath ++ p.name
        let inv2 := setAdd inv propPath
        let upd2 :=
          match upd? with
          | some u => some (setAdd u propPath)
          | none => none
        aioGo fuel objectPropDesc rest inv2 upd2

/-- Recursively add a nested object property's paths to the involved (and
optionally updated) path collections (source
`addInvolvedObjectProperty`). -/
def addInvolvedObjectProperty (fuel : Nat) (objectPropDesc : PropDesc)
    (inv : List String) (upd? : Option (List String)) :
    Except JsErr (List String × Option (List String)) :=
  aioGo fuel objectPropDesc objectPropDesc.nestedProps inv upd?

/-- Add a property to the involved (and optionally updated) property path
collections (source `addInvolvedProperty`): the proper dot-path ancestors
of the property path go into the updated set only; then the property
itself (or, for an `object`-typed property, its nested leaf paths) goes
into both. -/
def addInvolvedProperty (fuel : Nat) (pathPtr : RPtr) (inv : List String)
    (upd? : Option (List String)) :
    Except JsErr (List String × Option (List String)) :=
  let upd2 :=
    match upd? with
    | some upd =>
      some (addAncestorPaths upd (splitStr '.' pathPtr.propPath) "")
    | none => none
  if pathPtr.propDesc.svt == ScalarType.object then
    addInvolvedObjectProperty fuel pathPtr.propDesc inv upd2
  else
    let inv2 := setAdd inv pathPtr.propPath
    let upd3 :=
      match upd2 with
      | some u => some (setAdd u pathPtr.propPath)
      | none => none
    .ok (inv2, upd3)

/-- A patch operation definition from the RFC 6902 wire format:
`{op, path, value?, from?, patch?}` (absent members are `none`). -/
inductive OpDef where
  | mk : String → Option String → Option JVal → Option String →
      Option (List OpDef) → OpDef

def OpDef.op : OpDef → String
  | .mk o _ _ _ _ => o

def OpDef.path : OpDef → Option String
  | .mk _ p _ _ _ => p

def OpDef.value : OpDef → Option JVal
  | .mk _ _ v _ _ => v

def OpDef.fromPath : OpDef → Option String
  | .mk _ _ _ f _ => f

def OpDef.patch : OpDef → Option (List OpDef)
  | .mk _ _ _ _ l => l

mutual

/-- Parse one patch operation definition (source `parsePatchOperation`),
threading the involved/updated property path collections.  The embedding
types the definition as an `OpDef`, so the source's "specification is not
an object" and "op is missing or is not a string" checks are discharged by
construction.  Argument evaluation follows the source's left-to-right
order (path resolution, then path bookkeeping, then — per operation —
value validation, "from" resolution and validation, and "from"
bookkeeping). -/
def parsePatchOperation (fuel : Nat) (rt : RecordTypes)
    (recordTypeDesc : Container) (d : OpDef) (opInd : Nat)
    (inv upd : List String) :
    Except JsErr (PatchOp × List String × List String) :=
  match fuel with
  | 0 => .error .stackOverflow
  | fuel + 1 =>
    match d with
    | .mk op path value fromPath patch? =>
      if op = "add" then do
        let pathPtr ← resolvePropPointer recordTypeDesc path false PtrUse.set
        let sets ← addInvolvedProperty fuel pathPtr inv (some upd)
        let v ← validatePatchOperationValue rt op opInd pathPtr value true
        .ok (PatchOp.add pathPtr v, sets.1, sets.2.getD [])
      else if op = "merge" then do
        let pathPtr ← resolvePropPointer recordTypeDesc path true PtrUse.set
        match patch? with
        | none =>
          .error (.syntaxError
            ("Invalid patch operation #" ++ toString (opInd + 1) ++
              ": patch is not an array."))
        | some subDefs => do
          let sets ← addInvolvedProperty fuel pathPtr inv (some upd)
          let v ← validatePatchOperationValue rt op opInd pathPtr value true
          let sub ← parsePatchOps fuel rt recordTypeDesc subDefs 0 sets.1
            (sets.2.getD [])
          .ok (PatchOp.merge pathPtr v sub.1, sub.2.1, sub.2.2)
      else if op = "remove" then do
        let pathPtr ← resolvePropPointer recordTypeDesc path true PtrUse.erase
        let sets ← addInvolvedProperty fuel pathPtr inv (some upd)
        .ok (PatchOp.remove pathPtr, sets.1, sets.2.getD [])
      else if op = "replace" then do
        let pathPtr ← resolvePropPointer recordTypeDesc path false PtrUse.set
        let sets ← addInvolvedProperty fuel pathPtr inv (some upd)
        let v ← validatePatchOperationValue rt op opInd pathPtr value true
        .ok (PatchOp.replace pathPtr v, sets.1, sets.2.getD [])
      else if op = "move" then do
        let pathPtr ← resolvePropPointer recordTypeDesc path false PtrUse.set
        let sets1 ← addInvolvedProperty fuel pathPtr inv (some upd)
        let fromRaw ← resolvePropPointer recordTypeDesc fromPath true
          PtrUse.erase
        let fromPtr ← validatePatchOperationFrom op opInd pathPtr fromRaw true
        let sets2 ← addInvolvedProperty fuel fromPtr sets1.1
          (some (sets1.2.getD []))
        .ok (PatchOp.move pathPtr fromPtr, sets2.1, sets2.2.getD [])
      else if op = "copy" then do
        let pathPtr ← resolvePropPointer recordTypeDesc path false PtrUse.set
        let sets1 ← addInvolvedProperty fuel pathPtr inv (some upd)
        let fromRaw ← resolvePropPointer recordTypeDesc fromPath true
          PtrUse.read
        let fromPtr ← validatePatchOperationFrom op opInd pathPtr fromRaw false
        let sets2 ← addInvolvedProperty fuel fromPtr sets1.1 none
        .ok (PatchOp.copy pathPtr fromPtr, sets2.1, sets1.2.getD [])
      else if op = "test" then do
        let pathPtr ← resolvePropPointer recordTypeDesc path true PtrUse.read
        let sets ← addInvolvedProperty fuel pathPtr inv none
        let v ← validatePatchOperationValue rt op opInd pathPtr value false
        .ok (PatchOp.test pathPtr v, sets.1, upd)
      else
        .error (.syntaxError
          ("Invalid patch operation: unknown operation \"" ++ op ++ "\"."))

/-- Parse a list of patch operation definitions in order with their
indices (source `patch.map(parsePatchOperation)`), threading the path
collections. -/
def parsePatchOps (fuel : Nat) (rt : RecordTypes)
    (recordTypeDesc : Container) (defs : List OpDef) (ind : Nat)
    (inv upd : List String) :
    Except JsErr (List PatchOp × List String × List String) :=
  match fuel with
  | 0 => .error .stackOverflow
  | fuel + 1 =>
    match defs with
    | [] => .ok ([], inv, upd)
    | d :: rest => do
      let r ← parsePatchOperation fuel rt recordTypeDesc d ind inv upd
      let r2 ← parsePatchOps fuel rt recordTypeDesc rest (ind + 1) r.2.1 r.2.2
      .ok (r.1 :: r2.1, r2.2.1, r2.2.2)

end

/-- Build a record patch from an RFC 6902 patch specification (source
`build`).  The specification is a list by typing, so the source's
"not an array" check is discharged by construction. -/
def build (fuel : Nat) (rt : RecordTypes) (recordTypeName : String)
    (patch : List OpDef) : Except JsErr RecordPatch :=
  if !rt.hasRecordType recordTypeName then
    .error (.usageError ("Unknown record type " ++ recordTypeName ++ "."))
  else
    match rt.getRecordTypeDesc recordTypeName with
    | none =>
      .error (.usageError ("Unknown record type " ++ recordTypeName ++ "."))
    | some recordTypeDesc => do
      let r ← parsePatchOps fuel rt recordTypeDesc patch 0 [] []
      .ok ⟨r.1, r.2.1, r.2.2⟩

/-! ## Diff engine (`fromDiff`)

Translation of the diff engine.  The `while` loops over array cursors
become index recursions; the forward searches return offsets from the
current cursor (the source's absolute found index `di` equals
`iNew + offset`), which keeps the cursor arithmetic identical while making
the loop progress arithmetic self-evident. -/

/-- Make a string safe to use in a JSON pointer (source `ptrSafe`:
`str.replace(/[~/]/g, m => (m === '~' ? '~0' : '~1'))`). -/
def ptrSafe (s : String) : String := ⟨escapeChars s.toList⟩

/-- Read a property off a JavaScript value (`val[propName]`); arrays
answer their numeric indices, other non-objects have no properties. -/
def jsGetJ : JVal → String → Option JVal
  | .obj fields, k => jsGet fields k
  | .arr l, k =>
    match strToNat? k with
    | some i => l[i]?
    | none => none
  | _, _ => none

/-- `Object.keys` of a JavaScript value. -/
def jsKeysJ : JVal → List String
  | .obj fields => jsKeys fields
  | .arr l => (List.range l.length).map toString
  | _ => []

/-- A `remove` operation pushed by the diff engine. -/
def mkRemoveOp (path : String) : OpDef :=
  .mk "remove" (some path) none none none

/-- An `add` operation pushed by the diff engine. -/
def mkAddOp (path : String) (v : JVal) : OpDef :=
  .mk "add" (some path) (some v) none none

/-- A `replace` operation pushed by the diff engine. -/
def mkReplaceOp (path : String) (v : JVal) : OpDef :=
  .mk "replace" (some path) (some v) none none

/-- Offset (from `start`) of the first element of `an.drop start` that is
`===`-equal to `v`; `an.length - start` or more when there is none.  The
source's `while ((di < lenNew) && (arrNew[di] !== valOld)) di++` search
yields `di = start + findOffFrom an start v`. -/
def findOffFrom (an : List JVal) (start : Nat) (v : JVal) : Nat :=
  (an.drop start).findIdx (fun x => jsStrictEq x v)

/-- Like `findOffFrom` but matching on the element's id property (used by
the object-array alignment). -/
def findOffById (an : List JVal) (start : Nat) (idPropName : String)
    (idVal : Option JVal) : Nat :=
  (an.drop start).findIdx (fun x => jsStrictEqOO (jsGetJ x idPropName) idVal)

/-- The anchor search of the array alignment (source: advance `sni` from
`si + 1` until an old element occurring in the remaining new suffix is
found).  Returns `(sniOffset, diOffset)`: the anchor is
`arrOld[sni + sniOffset]` and its match `arrNew[iNew + diOffset]`; when no
anchor exists the first component pushes `sni` to `arrOld.length` or
beyond. -/
def findAnchorGo (an : List JVal) (iNew : Nat) : List JVal → Nat × Nat
  | [] => (0, 0)
  | v :: rest =>
    let doff := findOffFrom an iNew v
    if iNew + doff < an.length then (0, doff)
    else
      let r := findAnchorGo an iNew rest
      (r.1 + 1, r.2)

/-- The anchor search starting at absolute index `sni` scans the old
suffix `ao.drop sni` (the source advances `sni` while `sni < lenOld`). -/
def findAnchorOff (ao an : List JVal) (sni iNew : Nat) : Nat × Nat :=
  findAnchorGo an iNew (ao.drop sni)

/-- Anchor search of the object-array alignment, matching by id. -/
def findAnchorGoById (an : List JVal) (idPropName : String) (iNew : Nat) :
    List JVal → Nat × Nat
  | [] => (0, 0)
  | v :: rest =>
    let doff := findOffById an iNew idPropName (jsGetJ v idPropName)
    if iNew + doff < an.length then (0, doff)
    else
      let r := findAnchorGoById an idPropName iNew rest
      (r.1 + 1, r.2)

def findAnchorOffById (ao an : List JVal) (idPropName : String)
    (sni iNew : Nat) : Nat × Nat :=
  findAnchorGoById an idPropName iNew (ao.drop sni)

/-- Iteration core of the source loop `while (iNew < di) { push add at t;
iNew++; t++ }`, running `di - iNew` steps. -/
def insGo (propPath : String) (arrNew : List JVal) :
    Nat → Nat → Nat → List OpDef × Nat × Nat
  | 0, iNew, t => ([], iNew, t)
  | k + 1, iNew, t =>
    let r := insGo propPath arrNew k (iNew + 1) (t + 1)
    (mkAddOp (propPath ++ "/" ++ toString t) (arrNew.getD iNew JVal.null)
      :: r.1, r.2)

/-- Source loop `while (iNew < di) { push add at t; iNew++; t++ }`;
returns the emitted operations and the final `(iNew, t)`. -/
def dvaInsLoop (propPath : String) (arrNew : List JVal) (di iNew t : Nat) :
    List OpDef × Nat × Nat :=
  insGo propPath arrNew (di - iNew) iNew t

/-- Iteration core of the source loop `while ((iOld < sni) && (iNew < di))
{ push replace at t; iOld++; iNew++; t++ }`, running
`min (sni - iOld) (di - iNew)` steps. -/
def repGo (propPath : String) (arrNew : List JVal) :
    Nat → Nat → Nat → Nat → List OpDef × Nat × Nat × Nat
  | 0, iOld, iNew, t => ([], iOld, iNew, t)
  | k + 1, iOld, iNew, t =>
    let r := repGo propPath arrNew k (iOld + 1) (iNew + 1) (t + 1)
    (mkReplaceOp (propPath ++ "/" ++ toString t) (arrNew.getD iNew JVal.null)
      :: r.1, r.2)

/-- Source loop `while ((iOld < sni) && (iNew < di)) { push replace at t;
iOld++; iNew++; t++ }`; returns the emitted operations and the final
`(iOld, iNew, t)`. -/
def dvaRepLoop (propPath : String) (arrNew : List JVal)
    (sni di iOld iNew t : Nat) : List OpDef × Nat × Nat × Nat :=
  repGo propPath arrNew (min (sni - iOld) (di - iNew)) iOld iNew t

/-- Iteration core of the source loop `while (iOld < sni) { push remove at
t + sni - iOld - 1; iOld++ }` (`t` constant), running `sni - iOld`
steps. -/
def remGo (propPath : String) : Nat → Nat → Nat → Nat → List OpDef × Nat
  | 0, _, iOld, _ => ([], iOld)
  | k + 1, sni, iOld, t =>
    let r := remGo propPath k sni (iOld + 1) t
    (mkRemoveOp (propPath ++ "/" ++ toString (t + sni - iOld - 1)) :: r.1,
      r.2)

/-- Source loop `while (iOld < sni) { push remove at t + sni - iOld - 1;
iOld++ }`; returns the emitted operations and the final `iOld`. -/
def dvaRemLoop (propPath : String) (sni iOld t : Nat) : List OpDef × Nat :=
  remGo propPath (sni - iOld) sni iOld t

/-- The three `while` loops that follow the main alignment loop of
`diffValueArrays` (positional replaces while both suffixes remain, then
removes of the old excess from `t + lenOld - iOld` downwards, then adds of
the new excess at the tail pointer).  The phases never interleave — once a
suffix is exhausted it stays exhausted — so the sequential loops merge
into one recursion. -/
def dvaTailGo (propPath : String) (t : Nat) :
    List JVal → List JVal → List OpDef
  | _ :: xs, y :: ys =>
    mkReplaceOp (propPath ++ "/" ++ toString t) y
      :: dvaTailGo propPath (t + 1) xs ys
  | _ :: xs, [] =>
    mkRemoveOp (propPath ++ "/" ++ toString (t + xs.length))
      :: dvaTailGo propPath t xs []
  | [], ys => ys.map (fun v => mkAddOp (propPath ++ "/-") v)

/-- The trailing phase at cursors `(iOld, iNew)` acts on the remaining
suffixes; at a state where the old suffix is `x :: xs` the source's
remove index `t + lenOld - (iOld + 1)` equals `t + xs.length`. -/
def dvaTail (propPath : String) (arrOld arrNew : List JVal)
    (iOld iNew t : Nat) : List OpDef :=
  dvaTailGo propPath t (arrOld.drop iOld) (arrNew.drop iNew)

/-- Main alignment loop of `diffValueArrays` (source `while ((iOld <
lenOld) && (iNew < lenNew))`), followed by the trailing phase (`dvaTail`)
both on normal exit and on the no-anchor `break`. -/
def dvaMain (fuel : Nat) (propPath : String) (arrOld arrNew : List JVal)
    (iOld iNew t : Nat) : List OpDef :=
  match fuel with
  | 0 => []
  | fuel + 1 =>
    if iOld < arrOld.length then
      if iNew < arrNew.length then
        let valOld := arrOld.getD iOld JVal.null
        let valNew := arrNew.getD iNew JVal.null
        if jsStrictEq valOld valNew then
          dvaMain fuel propPath arrOld arrNew (iOld + 1) (iNew + 1) (t + 1)
        else
          let doff := findOffFrom arrNew iNew valOld
          if iNew + doff < arrNew.length then
            let di := iNew + doff
            let ins := dvaInsLoop propPath arrNew di iNew t
            ins.1 ++ dvaMain fuel propPath arrOld arrNew (iOld + 1) (di + 1)
              (ins.2.2 + 1)
          else
            let a := findAnchorOff arrOld arrNew (iOld + 1) iNew
            let sni := iOld + 1 + a.1
            let di := iNew + a.2
            if sni < arrOld.length then
              let rep := dvaRepLoop propPath arrNew sni di iOld iNew t
              let rem := dvaRemLoop propPath sni rep.2.1 rep.2.2.2
              let ins := dvaInsLoop propPath arrNew di rep.2.2.1 rep.2.2.2
              rep.1 ++ rem.1 ++ ins.1 ++
                dvaMain fuel propPath arrOld arrNew (sni + 1) (di + 1)
                  (ins.2.2 + 1)
            else
              dvaTail propPath arrOld arrNew iOld iNew t
      else dvaTail propPath arrOld arrNew iOld iNew t
    else dvaTail propPath arrOld arrNew iOld iNew t

/-- Diff two simple value arrays (source `diffValueArrays`).  Every main
loop iteration advances `iOld + iNew` by at least one, so
`arrOld.length + arrNew.length + 1` units of fuel always cover the loop
and the zero-fuel branch of `dvaMain` is unreachable. -/
def diffValueArrays (propPath : String) (arrOld arrNew : List JVal) :
    List OpDef :=
  dvaMain (arrOld.length + arrNew.length + 1) propPath arrOld arrNew 0 0 0

/-- Trailing loops of `diffObjectArrays`: removes of the old excess, then
adds of the new excess at the tail pointer (no replace pairing in the
object-array alignment). -/
def doaTailGo (propPath : String) (t : Nat) :
    List JVal → List JVal → List OpDef
  | _ :: xs, ys =>
    mkRemoveOp (propPath ++ "/" ++ toString (t + xs.length))
      :: doaTailGo propPath t xs ys
  | [], ys => ys.map (fun v => mkAddOp (propPath ++ "/-") v)

def doaTail (propPath : String) (arrOld arrNew : List JVal)
    (iOld iNew t : Nat) : List OpDef :=
  doaTailGo propPath t (arrOld.drop iOld) (arrNew.drop iNew)

mutual

/-- Recursively diff two objects (source `diffObjects`): diff the declared
properties, then reject properties of the new object that the container
does not declare.  Polymorphic containers are not modelled, so the
subtype branch is omitted.  The fuel models the JavaScript call stack. -/
def diffObjects (fuel : Nat) (container : Container) (pathPfx : String)
    (objOld objNew : JVal) : Except JsErr (List OpDef) :=
  match fuel with
  | 0 => .error .stackOverflow
  | fuel + 1 => do
    let ops ← dopLoop fuel container pathPfx objOld objNew container.props
    let unrecognized := (jsKeysJ objNew).filter
      (fun k => !(container.allPropertyNames.contains k))
    if unrecognized.isEmpty then .ok ops
    else
      .error (.syntaxError
        ("Unrecognized properties for " ++ container.recordTypeName ++
          " at " ++ pathPfx ++ ":" ++ String.intercalate ", " unrecognized))

/-- Per-property loop of source `diffObjectProps`. -/
def dopLoop (fuel : Nat) (container : Container) (pathPfx : String)
    (objOld objNew : JVal) (ps : List PropDesc) :
    Except JsErr (List OpDef) :=
  match fuel with
  | 0 => .error .stackOverflow
  | fuel + 1 =>
    match ps with
    | [] => .ok []
    | p :: rest =>
      if p.isView || p.isCalculated || p.isRecordMetaInfo || p.isSubtype then
        dopLoop fuel container pathPfx objOld objNew rest
      else do
        let valOld := jsGetJ objOld p.name
        let valNew := jsGetJ objNew p.name
        let ops ← diffOneProp fuel container pathPfx p valOld valNew
        let restOps ← dopLoop fuel container pathPfx objOld objNew rest
        .ok (ops ++ restOps)

/-- Body of one iteration of source `diffObjectProps`: the removal check
followed by the per-structural-kind dispatch.  The old record's property
values are assumed schema-valid (the source documents that their validity
is not checked); an old value of an unexpected shape takes the
whole-replace branch. -/
def diffOneProp (fuel : Nat) (container : Container) (pathPfx : String)
    (p : PropDesc) (valOld valNew : Option JVal) :
    Except JsErr (List OpDef) :=
  match fuel with
  | 0 => .error .stackOverflow
  | fuel + 1 =>
    match valNew with
    | none =>
      match valOld with
      | none => .ok []
      | some JVal.null => .ok []
      | some _ =>
        if !p.isId then .ok [mkRemoveOp (pathPfx ++ p.name)] else .ok []
    | some JVal.null =>
      match valOld with
      | none => .ok []
      | some JVal.null => .ok []
      | some _ =>
        if !p.isId then .ok [mkRemoveOp (pathPfx ++ p.name)] else .ok []
    | some vNew =>
      if p.isArray then
        match vNew with
        | .arr lNew =>
          if lNew.isEmpty then
            match valOld with
            | some (.arr (_ :: _)) => .ok [mkRemoveOp (pathPfx ++ p.name)]
            | _ => .ok []
          else
            match valOld with
            | none => .ok [mkReplaceOp (pathPfx ++ p.name) vNew]
            | some JVal.null => .ok [mkReplaceOp (pathPfx ++ p.name) vNew]
            | some (.arr []) => .ok [mkReplaceOp (pathPfx ++ p.name) vNew]
            | some (.arr lOld) =>
              if p.svt == ScalarType.object then
                diffObjectArrays fuel p (pathPfx ++ p.name) lOld lNew
              else
                .ok (diffValueArrays (pathPfx ++ p.name) lOld lNew)
            | some _ => .ok [mkReplaceOp (pathPfx ++ p.name) vNew]
        | _ =>
          .error (.syntaxError
            ("Provided value for " ++ container.recordTypeName ++
              " property at " ++ pathPfx ++ p.name ++ " is not an array."))
      else if p.isMap then
        match vNew with
        | .obj _ =>
          if (jsKeysJ vNew).isEmpty then
            match valOld with
            | some (.obj (_ :: _)) => .ok [mkRemoveOp (pathPfx ++ p.name)]
            | _ => .ok []
          else
            match valOld with
            | none => .ok [mkReplaceOp (pathPfx ++ p.name) vNew]
            | some JVal.null => .ok [mkReplaceOp (pathPfx ++ p.name) vNew]
            | some (.obj []) => .ok [mkReplaceOp (pathPfx ++ p.name) vNew]
            | some (.obj fOld) =>
              diffMaps fuel p (pathPfx ++ p.name) (.obj fOld) vNew
            | some _ => .ok [mkReplaceOp (pathPfx ++ p.name) vNew]
        | _ =>
          .error (.syntaxError
            ("Provided value for " ++ container.recordTypeName ++
              " property at " ++ pathPfx ++ p.name ++ " is not an object."))
      else if p.svt == ScalarType.object then
        match vNew with
        | .obj _ =>
          match valOld with
          | none => .ok [mkReplaceOp (pathPfx ++ p.name) vNew]
          | some JVal.null => .ok [mkReplaceOp (pathPfx ++ p.name) vNew]
          | some vOld =>
            diffObjects fuel p.nestedProperties (pathPfx ++ p.name ++ "/")
              vOld vNew
        | _ =>
          .error (.syntaxError
            ("Provided value for " ++ container.recordTypeName ++
              " property at " ++ pathPfx ++ p.name ++ " is not an object."))
      else
        match valOld with
        | some vOld =>
          if jsStrictEq vNew vOld then .ok []
          else .ok [mkReplaceOp (pathPfx ++ p.name) vNew]
        | none => .ok [mkReplaceOp (pathPfx ++ p.name) vNew]

/-- Diff two nested object arrays (source `diffObjectArrays`): requires a
schema-declared id property for the elements, then runs the two-cursor
alignment matching by id. -/
def diffObjectArrays (fuel : Nat) (propDesc : PropDesc)
    (propPath : String) (arrOld arrNew : List JVal) :
    Except JsErr (List OpDef) :=
  match fuel with
  | 0 => .error .stackOverflow
  | fuel + 1 =>
    match propDesc.nestedProperties.idPropertyName with
    | none =>
      .error (.usageError
        "Nested object elements without id property are not supported.")
    | some idPropName =>
      doaLoop fuel propDesc idPropName propPath arrOld arrNew 0 0 0

/-- Main alignment loop of `diffObjectArrays`.  When the current old
element's id matches the current new element's id the pair is diffed
recursively; when the match is found further along the new array, the
in-between new elements are inserted and the loop advances past the
matched pair *without* diffing it (as in the source). -/
def doaLoop (fuel : Nat) (propDesc : PropDesc) (idPropName : String)
    (propPath : String) (arrOld arrNew : List JVal) (iOld iNew t : Nat) :
    Except JsErr (List OpDef) :=
  match fuel with
  | 0 => .error .stackOverflow
  | fuel + 1 =>
    if iOld < arrOld.length ∧ iNew < arrNew.length then
      let valOld := arrOld.getD iOld JVal.null
      let valOldId := jsGetJ valOld idPropName
      let valNew := arrNew.getD iNew JVal.null
      if jsStrictEqOO valOldId (jsGetJ valNew idPropName) then do
        let ops ← diffObjects fuel propDesc.nestedProperties
          (propPath ++ "/" ++ toString t ++ "/") valOld valNew
        let rest ← doaLoop fuel propDesc idPropName propPath arrOld arrNew
          (iOld + 1) (iNew + 1) (t + 1)
        .ok (ops ++ rest)
      else
        let doff := findOffById arrNew iNew idPropName valOldId
        if iNew + doff < arrNew.length then do
          let di := iNew + doff
          let ins := dvaInsLoop propPath arrNew di iNew t
          let rest ← doaLoop fuel propDesc idPropName propPath arrOld arrNew
            (iOld + 1) (di + 1) (ins.2.2 + 1)
          .ok (ins.1 ++ rest)
        else
          let a := findAnchorOffById arrOld arrNew idPropName (iOld + 1) iNew
          let sni := iOld + 1 + a.1
          let di := iNew + a.2
          if sni < arrOld.length then do
            let rem := dvaRemLoop propPath sni iOld t
            let ins := dvaInsLoop propPath arrNew di iNew t
            let rest ← doaLoop fuel propDesc idPropName propPath arrOld
              arrNew (sni + 1) (di + 1) (ins.2.2 + 1)
            .ok (rem.1 ++ ins.1 ++ rest)
          else
            .ok (doaTail propPath arrOld arrNew iOld iNew t)
    else
      .ok (doaTail propPath arrOld arrNew iOld iNew t)

/-- Recursively diff two maps (source `diffMaps`): per new-map key add,
recurse or replace; keys of the old map not retained are removed. -/
def diffMaps (fuel : Nat) (propDesc : PropDesc) (propPath : String)
    (mapOld mapNew : JVal) : Except JsErr (List OpDef) :=
  match fuel with
  | 0 => .error .stackOverflow
  | fuel + 1 => do
    let r ← dmLoop fuel propDesc propPath mapOld mapNew (jsKeysJ mapNew)
      (jsKeysJ mapOld)
    .ok (r.1 ++ r.2.map (fun k => mkRemoveOp (propPath ++ "/" ++ ptrSafe k)))

/-- Per-key loop of `diffMaps`, threading the keys-to-remove set. -/
def dmLoop (fuel : Nat) (propDesc : PropDesc) (propPath : String)
    (mapOld mapNew : JVal) (ks : List String) (keysToRemove : List String) :
    Except JsErr (List OpDef × List String) :=
  match fuel with
  | 0 => .error .stackOverflow
  | fuel + 1 =>
    match ks with
    | [] => .ok ([], keysToRemove)
    | k :: rest =>
      let valOld := jsGetJ mapOld k
      let valNew := jsGetJ mapNew k
      match valNew with
      | none =>
        match valOld with
        | none =>
          dmLoop fuel propDesc propPath mapOld mapNew rest
            (keysToRemove.erase k)
        | some JVal.null =>
          dmLoop fuel propDesc propPath mapOld mapNew rest
            (keysToRemove.erase k)
        | some _ => dmLoop fuel propDesc propPath mapOld mapNew rest
            keysToRemove
      | some JVal.null =>
        match valOld with
        | none =>
          dmLoop fuel propDesc propPath mapOld mapNew rest
            (keysToRemove.erase k)
        | some JVal.null =>
          dmLoop fuel propDesc propPath mapOld mapNew rest
            (keysToRemove.erase k)
        | some _ => dmLoop fuel propDesc propPath mapOld mapNew rest
            keysToRemove
      | some vNew => do
        let ktr2 := keysToRemove.erase k
        let ops ←
          match valOld with
          | none => pure [mkAddOp (propPath ++ "/" ++ ptrSafe k) vNew]
          | some JVal.null =>
            pure [mkAddOp (propPath ++ "/" ++ ptrSafe k) vNew]
          | some vOld =>
            if propDesc.svt == ScalarType.object then
              diffObjects fuel propDesc.nestedProperties
                (propPath ++ "/" ++ ptrSafe k ++ "/") vOld vNew
            else if jsStrictEq vNew vOld then pure []
            else pure [mkReplaceOp (propPath ++ "/" ++ ptrSafe k) vNew]
        let r ← dmLoop fuel propDesc propPath mapOld mapNew rest ktr2
        .ok (ops ++ r.1, r.2)

end

/-- Build a patch specification from the difference of two records (source
`fromDiff`).  JavaScript arrays satisfy the source's
`typeof rec === 'object'` guards. -/
def fromDiff (fuel : Nat) (rt : RecordTypes) (recordTypeName : String)
    (recOld recNew : JVal) : Except JsErr (List OpDef) :=
  if !rt.hasRecordType recordTypeName then
    .error (.usageError ("Unknown record type " ++ recordTypeName ++ "."))
  else
    match rt.getRecordTypeDesc recordTypeName with
    | none =>
      .error (.usageError ("Unknown record type " ++ recordTypeName ++ "."))
    | some recordTypeDesc =>
      match recOld with
      | .obj _ =>
        match recNew with
        | .obj _ => diffObjects fuel recordTypeDesc "/" recOld recNew
        | .arr _ => diffObjects fuel recordTypeDesc "/" recOld recNew
        | _ =>
          .error (.syntaxError
            "Specified new record is not a non-null object.")
      | .arr _ =>
        match recNew with
        | .obj _ => diffObjects fuel recordTypeDesc "/" recOld recNew
        | .arr _ => diffObjects fuel recordTypeDesc "/" recOld recNew
        | _ =>
          .error (.syntaxError
            "Specified new record is not a non-null object.")
      | _ =>
        .error (.usageError
          "Specified original record is not a non-null object.")

/-! ## Specification-side notions used by the claims -/

mutual

/-- Structural deep equality of record values (the claims' "structurally
deep-equal": scalars by value, arrays by ordered elements, objects by
ordered fields). -/
def deepEqualJ : JVal → JVal → Bool
  | .null, .null => true
  | .str a, .str b => decide (a = b)
  | .num a, .num b => decide (a = b)
  | .bool a, .bool b => decide (a = b)
  | .arr a, .arr b => deepEqualL a b
  | .obj a, .obj b => deepEqualF a b
  | _, _ => false

def deepEqualL : List JVal → List JVal → Bool
  | [], [] => true
  | x :: xs, y :: ys => deepEqualJ x y && deepEqualL xs ys
  | _, _ => false

def deepEqualF : List (String × JVal) → List (String × JVal) → Bool
  | [], [] => true
  | (k1, v1) :: xs, (k2, v2) :: ys =>
    decide (k1 = k2) && deepEqualJ v1 v2 && deepEqualF xs ys
  | _, _ => false

end

/-- Schema validity of a whole record against a record type descriptor,
expressed through the module's own value validator: every declared stored
property's value is acceptable as a (non-update) literal for that
property, and the record declares no unknown top-level fields. -/
def validRecordBySchema (rt : RecordTypes) (c : Container) (v : JVal) :
    Bool :=
  match v with
  | .obj fields =>
    validObjectProps rt (.obj fields) c.props false &&
      (jsKeys fields).all (fun k => (c.props.map PropDesc.name).contains k)
  | _ => false

/-- The diff/build/apply round-trip pipeline of the claims:
`apply(build(fromDiff(old, new)), old)`. -/
def diffBuildApply (fuel : Nat) (rt : RecordTypes) (n : String)
    (recOld recNew : JVal) : Except JsErr (Bool × JVal × List Event) := do
  let spec ← fromDiff fuel rt n recOld recNew
  let patch ← build fuel rt n spec
  RecordPatch.apply patch recOld

/-- A valid datetime literal in the claims' sense: a string matching the
exact pattern `YYYY-MM-DDTHH:MM:SS.mmmZ` that parses as a valid date. -/
def datetimeValueOk : JVal → Bool
  | .str s => dtPatternMatch s && jsDateParseValid s
  | _ => false

/-- The trailing phase of the scalar-array alignment restated on the
remaining suffixes (the amended no-anchor behavior): remaining old/new
elements are paired positionally as replaces; an old excess is removed
from the highest index down; a new excess is appended via add at the tail
pointer. -/
def tailSpecF (propPath : String) (t : Nat) :
    List JVal → List JVal → List OpDef
  | _ :: xs, y :: ys =>
    mkReplaceOp (propPath ++ "/" ++ toString t) y
      :: tailSpecF propPath (t + 1) xs ys
  | x :: xs, [] =>
    ((List.range (x :: xs).length).reverse).map
      (fun j => mkRemoveOp (propPath ++ "/" ++ toString (t + j)))
  | [], ys => ys.map (fun v => mkAddOp (propPath ++ "/-") v)

/-! ## Concrete schemas and records used by the claims -/

/-- Property-descriptor data with the default flags (not a view, not
calculated, not generated, not record meta-info, not a subtype, no
reference target). -/
def mkPData (name : String) (coll : CollType) (svt : ScalarType)
    (opt modif idFlag : Bool) (nestedIdProp : Option String)
    (nestedPath : String) : PDData :=
  ⟨name, coll, svt, opt, modif, idFlag, false, false, false, false, false,
    none, nestedIdProp, nestedPath⟩

/-- Record type `Record1`: a number id plus a modifiable array `objarr` of
nested objects `(id, p)` keyed by `id`. -/
def c1idProp : PropDesc :=
  .mk (mkPData "id" CollType.scalar ScalarType.number false false true
    none "") []

def c1elemId : PropDesc :=
  .mk (mkPData "id" CollType.scalar ScalarType.number false false true
    none "") []

def c1elemP : PropDesc :=
  .mk (mkPData "p" CollType.scalar ScalarType.string false true false
    none "") []

def c1objarr : PropDesc :=
  .mk (mkPData "objarr" CollType.array ScalarType.object false true false
    (some "id") "objarr.") [c1elemId, c1elemP]

def c1container : Container := ⟨"Record1", "", some "id", [c1idProp, c1objarr]⟩

def rt1 : RecordTypes := [("Record1", c1container)]

def c1insVal : JVal := .obj [("id", .num 9), ("p", .str "N")]

def c1old : JVal :=
  .obj [("id", .num 1), ("objarr", .arr [.obj [("id", .num 1), ("p", .str "A")]])]

def c1new : JVal :=
  .obj [("id", .num 1),
    ("objarr", .arr [c1insVal, .obj [("id", .num 1), ("p", .str "B")]])]

def c1result : JVal :=
  .obj [("id", .num 1),
    ("objarr", .arr [c1insVal, .obj [("id", .num 1), ("p", .str "A")]])]

/-- Record type `Rec6`: a modifiable simple string array `arr`. -/
def c6arrProp : PropDesc :=
  .mk (mkPData "arr" CollType.array ScalarType.string false true false
    none "") []

def c6container : Container := ⟨"Rec6", "", none, [c6arrProp]⟩

def rt6 : RecordTypes := [("Rec6", c6container)]

def c6old : JVal :=
  .obj [("arr", .arr [.str "A", .str "B", .str "C", .str "D", .str "E",
    .str "F", .str "G"])]

def c6new : JVal :=
  .obj [("arr", .arr [.str "A", .str "B", .str "E", .str "F", .str "G"])]

/-- Record type `Rec3`: a string `simpleProp` plus an optional scalar
nested object `nestedObjProp` with a string `prop1`. -/
def simplePropPD : PropDesc :=
  .mk (mkPData "simpleProp" CollType.scalar ScalarType.string false true
    false none "") []

def prop1PD : PropDesc :=
  .mk (mkPData "prop1" CollType.scalar ScalarType.string false true false
    none "") []

def nestedObjPD : PropDesc :=
  .mk (mkPData "nestedObjProp" CollType.scalar ScalarType.object true true
    false none "nestedObjProp.") [prop1PD]

def c3container : Container := ⟨"Rec3", "", none, [simplePropPD, nestedObjPD]⟩

def rt3 : RecordTypes := [("Rec3", c3container)]

def c3ptr : RPtr :=
  ⟨[NavTok.field "nestedObjProp"], nestedObjPD, "nestedObjProp", false,
    "/nestedObjProp"⟩

def c4ptr : RPtr :=
  ⟨[NavTok.field "nestedObjProp", NavTok.field "prop1"], prop1PD,
    "nestedObjProp.prop1", false, "/nestedObjProp/prop1"⟩

def c3val : JVal := .obj [("prop1", .str "A")]

def c3rec : JVal := .obj [("simpleProp", .str "s"), ("nestedObjProp", c3val)]

def c5rec : JVal := .obj [("simpleProp", .str "s")]

def c4op : OpDef :=
  .mk "add" (some "/nestedObjProp/prop1") (some (.str "X")) none none

def c4patch : RecordPatch :=
  ⟨[PatchOp.add c4ptr (.str "X")], ["nestedObjProp.prop1"],
    ["nestedObjProp", "nestedObjProp.prop1"]⟩

/-- Record type `Rec8a`: an optional nested object `a` holding a nested
object `b` whose only property is a string (no object-typed child). -/
def xPD : PropDesc :=
  .mk (mkPData "x" CollType.scalar ScalarType.string false true false
    none "") []

def bSafePD : PropDesc :=
  .mk (mkPData "b" CollType.scalar ScalarType.object false true false
    none "a.b.") [xPD]

def aSafePD : PropDesc :=
  .mk (mkPData "a" CollType.scalar ScalarType.object true true false
    none "a.") [bSafePD]

def c8aContainer : Container := ⟨"Rec8a", "", none, [aSafePD]⟩

def rt8a : RecordTypes := [("Rec8a", c8aContainer)]

/-- Record type `Rec8b`: like `Rec8a` but `b` itself holds a nested object
`c` (an object-typed child, which trips the unbounded bookkeeping
recursion). -/
def cDeepPD : PropDesc :=
  .mk (mkPData "c" CollType.scalar ScalarType.object false true false
    none "a.b.c.") [xPD]

def bDeepPD : PropDesc :=
  .mk (mkPData "b" CollType.scalar ScalarType.object false true false
    none "a.b.") [cDeepPD]

def aDeepPD : PropDesc :=
  .mk (mkPData "a" CollType.scalar ScalarType.object true true false
    none "a.") [bDeepPD]

def c8bContainer : Container := ⟨"Rec8b", "", none, [aDeepPD]⟩

def rt8b : RecordTypes := [("Rec8b", c8bContainer)]

def c8moveOp : OpDef := .mk "move" (some "/a/b") none (some "/a") none

def c9moveOp : OpDef := .mk "move" (some "/a/b") none (some "") none

/-- Record type `RecDT`: a required modifiable scalar datetime `dt`. -/
def dtPD : PropDesc :=
  .mk (mkPData "dt" CollType.scalar ScalarType.datetime false true false
    none "") []

def dtContainer : Container := ⟨"RecDT", "", none, [dtPD]⟩

def rtDT : RecordTypes := [("RecDT", dtContainer)]

def dtPtr : RPtr := ⟨[NavTok.field "dt"], dtPD, "dt", false, "/dt"⟩

/-! ## Claim theorems -/

/-- Claim C1 (code bug): the diff/apply round trip fails.  For the
schema-valid records `c1old` and `c1new` of type `Record1`, `fromDiff`
emits a single insertion and never recursively diffs the id-matched
element that follows it, so applying the built patch to the old record
leaves `objarr[1].p = "A"` where the new record has `"B"`: the result is
not structurally deep-equal to the new record, although the claim (and
the repository's own `fromDiff` tests) promise deep equality. -/
theorem fromDiff_apply_roundtrip_failure :
    validRecordBySchema rt1 c1container c1old = true ∧
    validRecordBySchema rt1 c1container c1new = true ∧
    fromDiff 100 rt1 "Record1" c1old c1new = Except.ok [mkAddOp "/objarr/0" c1insVal] ∧
    diffBuildApply 100 rt1 "Record1" c1old c1new =
      Except.ok (true, c1result, [Event.insert "add" "/objarr/0" c1insVal none]) ∧
    deepEqualJ c1result c1new = false := by
  refine ⟨?_, ?_, ?_, ?_, ?_⟩ <;> rfl

/-- Claim C3 (code bug): no-op suppression is disabled for nested-object
values.  The current value of `/nestedObjProp` in `c3rec` is structurally
deep-equal to the supplied value, yet applying the "add" operation emits
an `onSet` event (the nested-object equality helpers are stubbed to
always report unequal); the claim promises no event. -/
theorem add_nested_object_noop_suppression_disabled :
    RPtr.getValue c3ptr c3rec = Except.ok (some c3val) ∧
    deepEqualJ c3val c3val = true ∧
    applyOp (PatchOp.add c3ptr c3val) c3rec =
      Except.ok (true, c3rec,
        [Event.set "add" "/nestedObjProp" c3val (some c3val)]) := by
  refine ⟨?_, ?_, ?_⟩ <;> rfl

/-- Claim C4 (code bug): the ancestor dot-paths recorded by
`addInvolvedProperty` go into `updatedPropPaths` only, so the built
patch's `updatedPropPaths` is not a subset of `involvedPropPaths` —
contradicting the claim and the accessor's own documentation ("All are
also included in the involvedPropPaths"). -/
theorem updatedPropPaths_not_subset_involved :
    build 100 rt3 "Rec3" [c4op] = Except.ok c4patch ∧
    c4patch.updatedPropPaths = ["nestedObjProp", "nestedObjProp.prop1"] ∧
    c4patch.involvedPropPaths = ["nestedObjProp.prop1"] ∧
    "nestedObjProp" ∈ c4patch.updatedPropPaths ∧
    "nestedObjProp" ∉ c4patch.involvedPropPaths := by
  refine ⟨?_, ?_, ?_, by decide, by decide⟩ <;> rfl

/-- Claim C5 (code bug): a "merge" operation whose target value is absent
does not behave as an add — evaluating `this._addOp(record, handlers)`
invokes the stored add-operation object as a function and throws a
`TypeError` — while a real "add" of the same value at the same pointer
succeeds and emits the corresponding event. -/
theorem merge_absent_target_typeerror :
    RPtr.getValue c3ptr c5rec = Except.ok (some JVal.null) ∧
    applyOp (PatchOp.merge c3ptr c3val []) c5rec =
      Except.error (JsErr.typeError "this._addOp is not a function") ∧
    applyOp (PatchOp.add c3ptr c3val) c5rec =
      Except.ok (true, c3rec, [Event.set "add" "/nestedObjProp" c3val none]) := by
  refine ⟨?_, ?_, ?_⟩ <;> rfl

/-- Claim C6 counterexample: on the specification's example records the
diff emits its two remove operations at indices 3 and 2, not both at
index 2 as the claim states. -/
theorem fromDiff_example_remove_indices_not_both_two :
    fromDiff 100 rt6 "Rec6" c6old c6new =
      Except.ok [mkRemoveOp "/arr/3", mkRemoveOp "/arr/2"] ∧
    ([mkRemoveOp "/arr/3", mkRemoveOp "/arr/2"].all
      (fun d => d.path == some "/arr/2")) = false := by
  refine ⟨?_, ?_⟩ <;> rfl

/-- Claim C6 amended: the diff of the example records yields exactly two
remove operations, at indices 3 and 2 in that order, and applying the
built patch to a copy of the old record reproduces the new record. -/
theorem fromDiff_example_remove_indices_amended :
    fromDiff 100 rt6 "Rec6" c6old c6new =
      Except.ok [mkRemoveOp "/arr/3", mkRemoveOp "/arr/2"] ∧
    diffBuildApply 100 rt6 "Rec6" c6old c6new =
      Except.ok (true, c6new,
        [Event.remove "remove" "/arr/3" (JVal.str "D"),
         Event.remove "remove" "/arr/2" (JVal.str "C")]) ∧
    deepEqualJ c6new c6new = true := by
  refine ⟨?_, ?_, ?_⟩ <;> rfl

/-- Claim C7 counterexample: in the no-anchor case the diff emits
`replace` operations — on old `["A","B"]` against new `["C","D"]` (which
share no element, so no anchor exists) the output consists of two
replaces, not only adds at the tail pointer and removes. -/
theorem diffValueArrays_no_anchor_emits_replace :
    diffValueArrays "/arr" [JVal.str "A", JVal.str "B"]
      [JVal.str "C", JVal.str "D"] =
      [mkReplaceOp "/arr/0" (JVal.str "C"),
       mkReplaceOp "/arr/1" (JVal.str "D")] ∧
    ([mkReplaceOp "/arr/0" (JVal.str "C"),
      mkReplaceOp "/arr/1" (JVal.str "D")].all
      (fun d => d.op == "remove" ||
        (d.op == "add" && d.path == some "/arr/-"))) = false := by
  refine ⟨?_, ?_⟩ <;> rfl

set_option maxRecDepth 4000 in
/-- Claim C8 counterexample: a move whose destination is a descendant of
its source need not fail with a SyntaxError — when the destination
property is a nested object containing another nested-object property,
the path-set bookkeeping (`addInvolvedObjectProperty`) recurses on the
unchanged outer descriptor and the build dies of stack exhaustion before
the cycle check is reached. -/
theorem move_cycle_build_stack_overflow :
    build 100 rt8b "Rec8b" [c8moveOp] = Except.error JsErr.stackOverflow ∧
    isSyntaxErr (build 100 rt8b "Rec8b" [c8moveOp]) = false := by
  refine ⟨?_, ?_⟩ <;> rfl

set_option maxRecDepth 4000 in
/-- Claim C9 counterexample: a move whose `from` pointer is the root is
not always rejected with a SyntaxError — when the (valid) destination
path targets a nested object containing another nested-object property,
the destination bookkeeping exhausts the stack before the root `from`
pointer is even resolved. -/
theorem root_from_build_stack_overflow :
    build 100 rt8b "Rec8b" [c9moveOp] = Except.error JsErr.stackOverflow ∧
    isSyntaxErr (build 100 rt8b "Rec8b" [c9moveOp]) = false := by
  refine ⟨?_, ?_⟩ <;> rfl

/-- Strict equality of embedded JSON scalars is symmetric. -/
theorem jsStrictEq_comm (a b : JVal) : jsStrictEq a b = jsStrictEq b a := by
  cases a <;> cases b <;> simp [jsStrictEq, eq_comm]

/-- `findIdx` runs off the end of a list on which the predicate never
holds. -/
theorem findIdx_of_all_false (p : JVal → Bool) :
    ∀ l : List JVal, (∀ x ∈ l, p x = false) → l.findIdx p = l.length := by
  intro l
  induction l with
  | nil => intro _; rfl
  | cons a l ih =>
    intro h
    rw [List.findIdx_cons]
    rw [h a (List.mem_cons_self a l)]
    simp [ih (fun x hx => h x (List.mem_cons_of_mem a hx))]

/-- The inner search of the alignment finds nothing when the sought value
strictly equals no element of the new array. -/
theorem findOffFrom_none (an : List JVal) (v : JVal)
    (h : ∀ y ∈ an, jsStrictEq y v = false) : findOffFrom an 0 v = an.length := by
  simp only [findOffFrom, List.drop_zero]
  exact findIdx_of_all_false _ an h

/-- The anchor search scans the whole old suffix without a hit when no old
element strictly equals any new element. -/
theorem findAnchorGo_none (an : List JVal) :
    ∀ rest : List JVal, (∀ v ∈ rest, ∀ y ∈ an, jsStrictEq y v = false) →
      findAnchorGo an 0 rest = (rest.length, 0) := by
  intro rest
  induction rest with
  | nil => intro _; rfl
  | cons v rest ih =>
    intro h
    rw [findAnchorGo]
    have hoff : findOffFrom an 0 v = an.length :=
      findOffFrom_none an v (h v (List.mem_cons_self v rest))
    simp only [hoff, Nat.zero_add, lt_irrefl, if_false,
      ih (fun w hw => h w (List.mem_cons_of_mem v hw)), List.length_cons]

/-- When the new suffix is exhausted, the trailing phase removes the old
excess from the highest index downwards. -/
theorem dvaTailGo_old_excess (propPath : String) :
    ∀ (xs : List JVal) (t : Nat),
      dvaTailGo propPath t xs [] =
        ((List.range xs.length).reverse).map
          (fun j => mkRemoveOp (propPath ++ "/" ++ toString (t + j))) := by
  intro xs
  induction xs with
  | nil => intro t; rfl
  | cons x xs ih =>
    intro t
    rw [dvaTailGo, ih t]
    simp [List.range_succ]

/-- The sequential trailing loops of the scalar-array alignment compute
exactly the amended trailing specification. -/
theorem dvaTailGo_eq_tailSpecF (propPath : String) :
    ∀ (xs ys : List JVal) (t : Nat),
      dvaTailGo propPath t xs ys = tailSpecF propPath t xs ys := by
  intro xs
  induction xs with
  | nil => intro ys t; cases ys <;> rfl
  | cons x xs ih =>
    intro ys t
    cases ys with
    | nil =>
      rw [dvaTailGo_old_excess propPath (x :: xs) t, tailSpecF]
    | cons y ys =>
      rw [dvaTailGo, tailSpecF, ih ys (t + 1)]

/-- Claim C7 amended: in the no-anchor case (no old element strictly
equals any new element, so the first comparison fails, the inner search
misses, and the anchor scan runs off the old array) the diff emits the
full trailing phase `tailSpecF`: positional replace operations while both
suffixes last, then removes of the old excess from the highest index
down, then adds of the new excess at the tail pointer "-" — not only adds
and removes as the specification states. -/
theorem diffValueArrays_no_anchor_amended (propPath : String)
    (arrOld arrNew : List JVal) (hO : arrOld ≠ []) (hN : arrNew ≠ [])
    (hne : ∀ x ∈ arrOld, ∀ y ∈ arrNew, jsStrictEq y x = false) :
    diffValueArrays propPath arrOld arrNew =
      tailSpecF propPath 0 arrOld arrNew := by
  cases arrOld with
  | nil => exact absurd rfl hO
  | cons x xs =>
    cases arrNew with
    | nil => exact absurd rfl hN
    | cons y ys =>
      have hxy : jsStrictEq x y = false := by
        rw [jsStrictEq_comm]
        exact hne x (List.mem_cons_self x xs) y (List.mem_cons_self y ys)
      have hoff : findOffFrom (y :: ys) 0 x = (y :: ys).length :=
        findOffFrom_none (y :: ys) x
          (fun z hz => hne x (List.mem_cons_self x xs) z hz)
      have hanchor : findAnchorGo (y :: ys) 0 xs = (xs.length, 0) :=
        findAnchorGo_none (y :: ys) xs
          (fun v hv z hz => hne v (List.mem_cons_of_mem x hv) z hz)
      rw [diffValueArrays, dvaMain]
      simp only [List.length_cons, Nat.succ_sub_one, List.getD_cons_zero,
        hxy, Bool.false_eq_true, if_false, hoff, findAnchorOff,
        List.drop_succ_cons, List.drop_zero, hanchor, Nat.zero_add,
        lt_irrefl, Nat.lt_irrefl, dvaTail]
      rw [if_neg (by omega : ¬ 1 + xs.length < xs.length + 1)]
      simp only [ite_self]
      exact dvaTailGo_eq_tailSpecF propPath (x :: xs) (y :: ys) 0

/-- Closed witness for `diffValueArrays_no_anchor_amended`: the arrays
`["A","B"]` and `["C","D"]` share no element, and their diff is the full
trailing specification (two replaces here). -/
theorem diffValueArrays_no_anchor_amended_witness :
    ([JVal.str "A", JVal.str "B"] : List JVal) ≠ [] ∧
    ([JVal.str "C", JVal.str "D"] : List JVal) ≠ [] ∧
    (∀ x ∈ ([JVal.str "A", JVal.str "B"] : List JVal),
      ∀ y ∈ ([JVal.str "C", JVal.str "D"] : List JVal),
        jsStrictEq y x = false) ∧
    diffValueArrays "/arr" [JVal.str "A", JVal.str "B"]
        [JVal.str "C", JVal.str "D"] =
      tailSpecF "/arr" 0 [JVal.str "A", JVal.str "B"]
        [JVal.str "C", JVal.str "D"] := by
  refine ⟨by simp, by simp, ?_, ?_⟩
  · intro x hx y hy
    simp only [List.mem_cons, List.not_mem_nil, or_false] at hx hy
    rcases hx with rfl | rfl <;> rcases hy with rfl | rfl <;> rfl
  · refine diffValueArrays_no_anchor_amended "/arr" _ _ (by simp) (by simp) ?_
    intro x hx y hy
    simp only [List.mem_cons, List.not_mem_nil, or_false] at hx hy
    rcases hx with rfl | rfl <;> rcases hy with rfl | rfl <;> rfl

/-- `do`-notation step: binding a successful `Except` computation. -/
theorem exceptBindOk {α β : Type} (a : α) (f : α → Except JsErr β) :
    (Except.ok a >>= f) = f a := rfl

/-- `do`-notation step: binding a failed `Except` computation. -/
theorem exceptBindErr {α β : Type} (e : JsErr) (f : α → Except JsErr β) :
    ((Except.error e : Except JsErr α) >>= f) = Except.error e := rfl

/-- Claim C8 amended: a "move" operation whose destination pointer is a
child location of its "from" pointer is rejected with a SyntaxError —
provided the destination's involved-path bookkeeping (which the source
runs *before* validating the "from" pointer, and which diverges on an
object-typed property with an object-typed child) terminates. -/
theorem move_descendant_destination_rejected (fuel : Nat)
    (rt : RecordTypes) (recordTypeDesc : Container)
    (path fromPath : Option String) (value : Option JVal)
    (patch? : Option (List OpDef)) (opInd : Nat) (inv upd : List String)
    {pPtr fPtr : RPtr} {sets : List String × Option (List String)}
    (hpath : resolvePropPointer recordTypeDesc path false PtrUse.set =
      Except.ok pPtr)
    (hbk : addInvolvedProperty fuel pPtr inv (some upd) = Except.ok sets)
    (hfrom : resolvePropPointer recordTypeDesc fromPath true PtrUse.erase =
      Except.ok fPtr)
    (hchild : pPtr.isChildOf fPtr = true) :
    isSyntaxErr (parsePatchOperation (fuel + 1) rt recordTypeDesc
      (OpDef.mk "move" path value fromPath patch?) opInd inv upd) = true := by
  simp only [parsePatchOperation]
  rw [if_neg (by decide : ¬ ("move" = "add")),
    if_neg (by decide : ¬ ("move" = "merge")),
    if_neg (by decide : ¬ ("move" = "remove")),
    if_neg (by decide : ¬ ("move" = "replace")),
    if_pos trivial]
  rw [hpath]
  simp only [exceptBindOk]
  rw [hbk]
  simp only [exceptBindOk]
  rw [hfrom]
  simp only [exceptBindOk]
  rw [validatePatchOperationFrom]
  simp only [hchild, Bool.and_self, if_true, exceptBindErr, isSyntaxErr]

/-- Closed witness for `move_descendant_destination_rejected`: on record
type `Rec8a` the operation moving `/a` into its child `/a/b` resolves
both pointers, the destination bookkeeping terminates, and the build-time
parse reports a SyntaxError. -/
theorem move_descendant_destination_rejected_witness :
    (⟨[NavTok.field "a", NavTok.field "b"], bSafePD, "a.b", false, "/a/b"⟩ :
        RPtr).isChildOf ⟨[NavTok.field "a"], aSafePD, "a", false, "/a"⟩ =
      true ∧
    isSyntaxErr (parsePatchOperation 10 rt8a c8aContainer c8moveOp 0 [] []) =
      true :=
  ⟨by rfl,
   @move_descendant_destination_rejected 9 rt8a c8aContainer (some "/a/b")
     (some "/a") none none 0 [] []
     ⟨[NavTok.field "a", NavTok.field "b"], bSafePD, "a.b", false, "/a/b"⟩
     ⟨[NavTok.field "a"], aSafePD, "a", false, "/a"⟩
     (["a.b.x"], some ["a", "a.b.x"])
     (by rfl) (by rfl) (by rfl) (by rfl)⟩

/-- The empty-string pointer parses to the root pointer. -/
theorem pointersParse_empty (c : Container) (noDash : Bool) :
    pointersParse c (some "") noDash = Except.ok PtrRes.root := rfl

/-- Resolving the empty-string pointer for any use is rejected with the
whole-record SyntaxError. -/
theorem resolvePropPointer_empty (c : Container) (noDash : Bool)
    (u : PtrUse) :
    resolvePropPointer c (some "") noDash u =
      Except.error (.syntaxError
        "Patch operations involving top records as a whole are not allowed.") :=
  rfl

/-- Claim C9 amended: an operation whose `path` is the root pointer is
always rejected at build time with a SyntaxError, for all seven operation
kinds; an operation whose `from` pointer is the root is likewise rejected
for "move" and "copy" — but only provided the destination path resolves
and its involved-path bookkeeping (which the source runs before the
"from" resolution, and which can diverge) terminates. -/
theorem root_pointer_rejected_amended (fuel : Nat) (rt : RecordTypes)
    (recordTypeDesc : Container) (value : Option JVal)
    (patch? : Option (List OpDef)) (opInd : Nat) (inv upd : List String) :
    (∀ (fromPath : Option String),
      ∀ op ∈ (["add", "merge", "remove", "replace", "move", "copy",
          "test"] : List String),
        isSyntaxErr (parsePatchOperation (fuel + 1) rt recordTypeDesc
          (OpDef.mk op (some "") value fromPath patch?) opInd inv upd) =
          true) ∧
    (∀ (path : Option String) (pPtr : RPtr)
        (sets : List String × Option (List String)),
      resolvePropPointer recordTypeDesc path false PtrUse.set =
          Except.ok pPtr →
      addInvolvedProperty fuel pPtr inv (some upd) = Except.ok sets →
      ∀ op ∈ (["move", "copy"] : List String),
        isSyntaxErr (parsePatchOperation (fuel + 1) rt recordTypeDesc
          (OpDef.mk op path value (some "") patch?) opInd inv upd) =
          true) := by
  constructor
  · intro fromPath op hop
    simp only [List.mem_cons, List.not_mem_nil, or_false] at hop
    rcases hop with rfl | rfl | rfl | rfl | rfl | rfl | rfl <;>
      simp [parsePatchOperation, resolvePropPointer_empty, exceptBindErr,
        isSyntaxErr]
  · intro path pPtr sets hpath hbk op hop
    simp only [List.mem_cons, List.not_mem_nil, or_false] at hop
    rcases hop with rfl | rfl
    · simp only [parsePatchOperation]
      rw [if_neg (by decide : ¬ ("move" = "add")),
        if_neg (by decide : ¬ ("move" = "merge")),
        if_neg (by decide : ¬ ("move" = "remove")),
        if_neg (by decide : ¬ ("move" = "replace")),
        if_pos trivial]
      rw [hpath]
      simp only [exceptBindOk]
      rw [hbk]
      simp only [exceptBindOk]
      rw [resolvePropPointer_empty]
      simp only [exceptBindErr, isSyntaxErr]
    · simp only [parsePatchOperation]
      rw [if_neg (by decide : ¬ ("copy" = "add")),
        if_neg (by decide : ¬ ("copy" = "merge")),
        if_neg (by decide : ¬ ("copy" = "remove")),
        if_neg (by decide : ¬ ("copy" = "replace")),
        if_neg (by decide : ¬ ("copy" = "move")),
        if_pos trivial]
      rw [hpath]
      simp only [exceptBindOk]
      rw [hbk]
      simp only [exceptBindOk]
      rw [resolvePropPointer_empty]
      simp only [exceptBindErr, isSyntaxErr]

/-- Closed witness for `root_pointer_rejected_amended`: on record type
`Rec3` an "add" whose path is the root pointer and a "move" whose "from"
is the root pointer (with destination `/simpleProp`, whose bookkeeping
terminates) are both rejected with a SyntaxError. -/
theorem root_pointer_rejected_amended_witness :
    resolvePropPointer c3container (some "/simpleProp") false PtrUse.set =
      Except.ok ⟨[NavTok.field "simpleProp"], simplePropPD, "simpleProp",
        false, "/simpleProp"⟩ ∧
    addInvolvedProperty 5
        ⟨[NavTok.field "simpleProp"], simplePropPD, "simpleProp", false,
          "/simpleProp"⟩ [] (some []) =
      Except.ok (["simpleProp"], some ["simpleProp"]) ∧
    isSyntaxErr (parsePatchOperation 6 rt3 c3container
      (OpDef.mk "add" (some "") none none none) 0 [] []) = true ∧
    isSyntaxErr (parsePatchOperation 6 rt3 c3container
      (OpDef.mk "move" (some "/simpleProp") none (some "") none) 0 [] []) =
      true :=
  ⟨by rfl, by rfl,
   (root_pointer_rejected_amended 5 rt3 c3container none none 0 [] []).1
     none "add" (by simp),
   (root_pointer_rejected_amended 5 rt3 c3container none none 0 [] []).2
     (some "/simpleProp")
     ⟨[NavTok.field "simpleProp"], simplePropPD, "simpleProp", false,
       "/simpleProp"⟩
     (["simpleProp"], some ["simpleProp"]) (by rfl) (by rfl) "move"
     (by simp)⟩

/-- The scalar-value validator on a datetime property, computed per value
shape. -/
theorem isInvalidScalarValueType_dt (rt : RecordTypes) (nm : String)
    (coll : CollType) (o m iid vw cal gen rmi st : Bool)
    (refT nip : Option String) (np : String) (ps : List PropDesc)
    (forUpdate : Bool) (val : JVal) :
    isInvalidScalarValueType rt val
      (PropDesc.mk
        ⟨nm, coll, ScalarType.datetime, o, m, iid, vw, cal, gen, rmi, st,
          refT, nip, np⟩ ps) forUpdate =
      (match val with
      | .null => none
      | .str s =>
        if dtPatternMatch s && jsDateParseValid s then none
        else some "expected ISO 8601 string."
      | _ => some "expected ISO 8601 string.") := by
  cases val <;> rfl

/-- Claim C10: for a scalar datetime target property and a non-null
value, build-time value validation accepts the value exactly when it is a
string matching the pattern `YYYY-MM-DDTHH:MM:SS.mmmZ` that parses as a
valid date; any other non-null value is rejected with a SyntaxError.
Stated for the operation kinds that validate a value against the path
property ("add", "replace", "test"). -/
theorem datetime_literal_validation (rt : RecordTypes) (opType : String)
    (opInd : Nat) (ptr : RPtr) (val : JVal) (forUpdate : Bool)
    (hop : opType = "add" ∨ opType = "replace" ∨ opType = "test")
    (hscalar : ptr.propDesc.coll = CollType.scalar)
    (hdt : ptr.propDesc.svt = ScalarType.datetime)
    (hnn : val ≠ JVal.null) :
    (datetimeValueOk val = true →
      validatePatchOperationValue rt opType opInd ptr (some val) forUpdate =
        Except.ok val) ∧
    (datetimeValueOk val = false →
      isSyntaxErr (validatePatchOperationValue rt opType opInd ptr
        (some val) forUpdate) = true) := by
  have hm : ¬ (opType = "merge") := by
    rcases hop with rfl | rfl | rfl <;> decide
  have hA : ptr.propDesc.isArray = false := by
    simp [PropDesc.isArray, hscalar]
  have hM : ptr.propDesc.isMap = false := by
    simp [PropDesc.isMap, hscalar]
  cases hpd : ptr.propDesc with
  | mk d ps =>
    rw [hpd] at hdt hA hM
    obtain ⟨nm, coll, svt, o, mo, iid, vw, cal, gen, rmi, st, refT, nip,
      np⟩ := d
    have hsvt : svt = ScalarType.datetime := hdt
    subst hsvt
    constructor
    · intro hv
      simp only [validatePatchOperationValue]
      rw [if_neg hm]
      cases val with
      | null => exact absurd rfl hnn
      | str s =>
        simp only [datetimeValueOk] at hv
        simp only [hpd, hA, hM, Bool.false_and, if_false,
          isInvalidScalarValueType_dt, hv]
        simp
      | num n => simp [datetimeValueOk] at hv
      | bool b => simp [datetimeValueOk] at hv
      | arr l => simp [datetimeValueOk] at hv
      | obj f => simp [datetimeValueOk] at hv
    · intro hv
      simp only [validatePatchOperationValue]
      rw [if_neg hm]
      cases val with
      | null => exact absurd rfl hnn
      | str s =>
        simp only [datetimeValueOk] at hv
        simp only [hpd, hA, hM, Bool.false_and, if_false,
          isInvalidScalarValueType_dt, hv, Bool.false_eq_true,
          isSyntaxErr]
      | num n =>
        simp only [hpd, hA, hM, Bool.false_and, if_false,
          isInvalidScalarValueType_dt, isSyntaxErr]
        simp
      | bool b =>
        simp only [hpd, hA, hM, Bool.false_and, if_false,
          isInvalidScalarValueType_dt, isSyntaxErr]
        simp
      | arr l =>
        simp only [hpd, hA, hM, Bool.false_and, if_false,
          isInvalidScalarValueType_dt, isSyntaxErr]
        simp
      | obj f =>
        simp only [hpd, hA, hM, Bool.false_and, if_false,
          isInvalidScalarValueType_dt, isSyntaxErr]
        simp

/-- Closed witness for `datetime_literal_validation`: on record type
`RecDT` the literal `"2021-05-04T10:20:30.123Z"` for the scalar datetime
property `/dt` is accepted by an "add" operation's value validation. -/
theorem datetime_literal_validation_witness :
    (("add" : String) = "add" ∨ ("add" : String) = "replace" ∨
      ("add" : String) = "test") ∧
    dtPtr.propDesc.coll = CollType.scalar ∧
    dtPtr.propDesc.svt = ScalarType.datetime ∧
    JVal.str "2021-05-04T10:20:30.123Z" ≠ JVal.null ∧
    datetimeValueOk (JVal.str "2021-05-04T10:20:30.123Z") = true ∧
    validatePatchOperationValue rtDT "add" 0 dtPtr
        (some (JVal.str "2021-05-04T10:20:30.123Z")) true =
      Except.ok (JVal.str "2021-05-04T10:20:30.123Z") :=
  ⟨Or.inl rfl, rfl, rfl, by simp, by rfl,
   (datetime_literal_validation rtDT "add" 0 dtPtr
      (JVal.str "2021-05-04T10:20:30.123Z") true (Or.inl rfl) rfl rfl
      (by simp)).1 (by rfl)⟩
